import Mathlib

/-!
# Chronomancer: potentiometer controller

A shallow embedding of `src/potentiometers/controller.cpp` (moving-average
filter, unit conversion, arbitration of the active potentiometer and the
display gate) together with the properties stated about it.

Conventions of the embedding.

* C `int` / `long` values are mathematical integers (`Int`).  Signed overflow is
  undefined in C++ and cannot arise for ADC readings in `[0, 4095]`
  (ten readings sum to at most `40950`, `4095 * 500 = 2047500`).
  `/` and `%` on `int` are `Int.tdiv` / `Int.tmod` (truncation toward zero).
* `unsigned long` (32 bit on the ESP32) is a natural number; subtraction
  wraps modulo `2 ^ 32`.
* The file-scope `static` variables of `controller.cpp` are the fields of
  `State`; every function takes the state and returns the new one.
* The hardware reads (`analogRead`, `millis`) are inputs of the functions.
* The calls of `updateDisplayBody` are recorded, in order, in `displayLog`.
* The `Serial` diagnostics write nothing that the controller reads back,
  except `lastDebugTime`, which is kept.
-/

set_option maxRecDepth 16384

namespace Chronomancer

/-! ## Constants -/

/-- The number of samples averaged by the filter (`controller.cpp:16`). -/
abbrev FILTER_SAMPLES : Nat := 10

/-- The local constant `MIN_CHANGE_THRESHOLD` of the poll (`controller.cpp:141`). -/
abbrev MIN_CHANGE_THRESHOLD : Int := 3

/-- The local constant `UPDATE_INTERVAL` of the poll (`controller.cpp:113`). -/
abbrev UPDATE_INTERVAL : Nat := 50

/-- The modulus of `unsigned long` arithmetic on the target (32 bit). -/
abbrev ULONG_MOD : Nat := 2 ^ 32

/-! ## Library functions used by the controller -/

/-- The C library `abs` on `int`. -/
def c_abs (x : Int) : Int := if x < 0 then -x else x

/-- Subtraction of two `unsigned long` values, wrapping modulo `2 ^ 32`. -/
def ulongSub (a b : Nat) : Nat := (a % ULONG_MOD + ULONG_MOD - b % ULONG_MOD) % ULONG_MOD

/-- Modelled from the spec: the Arduino core function `map`, which is called by
`adcToDelayTime` and `adcToPercentage` but is not part of the repository.  The
spec gives the scaling law `out = raw * domainMax / 4095` with integer
truncation; this is the Arduino reference definition
`(x - in_min) * (out_max - out_min) / (in_max - in_min) + out_min`. -/
def map (x in_min in_max out_min out_max : Int) : Int :=
  Int.tdiv ((x - in_min) * (out_max - out_min)) (in_max - in_min) + out_min

/-- The rendering of an `int` by the `%d` conversion of `snprintf`. -/
def fmtInt (x : Int) : String := toString x

/-! ## Moving-average filter (`controller.cpp:38-54`) -/

/-- The effect of one call of `filterValue`: the buffer and the index after the
call, and the returned value. -/
structure FilterResult where
  buffer : List Int
  index : Int
  value : Int
deriving DecidableEq, Repr

/-- The priming loop `for (i = 0; i < FILTER_SAMPLES; i++) buffer[i] = newValue`
(`controller.cpp:41-43`). -/
def fillBuffer (buffer : List Int) (newValue : Int) : List Int :=
  (List.range FILTER_SAMPLES).foldl (fun b i => b.set i newValue) buffer

/-- The summation loop `for (i = 0; i < FILTER_SAMPLES; i++) sum += buffer[i]`
(`controller.cpp:49-52`). -/
def sumBuffer (buffer : List Int) : Int :=
  (List.range FILTER_SAMPLES).foldl (fun sum i => sum + buffer.getD i 0) 0

/-- The function `filterValue(buffer, newValue, index)` (`controller.cpp:38-54`).
The global flag `filterInitialized`, which the function reads, is its first
argument. -/
def filterValue (filterInitialized : Bool) (buffer : List Int) (newValue : Int)
    (index : Int) : FilterResult :=
  let buffer1 := if !filterInitialized then fillBuffer buffer newValue else buffer
  let buffer2 := buffer1.set index.toNat newValue
  let index2 := Int.tmod (index + 1) FILTER_SAMPLES
  let sum := sumBuffer buffer2
  { buffer := buffer2, index := index2, value := Int.tdiv sum FILTER_SAMPLES }

/-! ## Unit conversion (`controller.cpp:64-74`) -/

/-- The function `adcToDelayTime` (`controller.cpp:66-69`). -/
def adcToDelayTime (adcValue : Int) : Int := map adcValue 0 4095 0 500

/-- The function `adcToPercentage` (`controller.cpp:72-74`). -/
def adcToPercentage (adcValue : Int) : Int := map adcValue 0 4095 0 100

/-! ## State -/

/-- The anonymous enumeration of `lastChangedPot` (`controller.cpp:57-62`). -/
inductive Pot where
  | POT_NONE
  | POT_DELAY_TIME
  | POT_FEEDBACK
  | POT_LEVEL
deriving DecidableEq, Repr

/-- The static variables of `controller.cpp`, and the record of the bodies sent
to the display. -/
structure State where
  lastDelayTime : Int
  lastFeedback : Int
  lastLevel : Int
  lastDisplayedDelayTime : Int
  lastDisplayedFeedback : Int
  lastDisplayedLevel : Int
  delayTimeBuffer : List Int
  feedbackBuffer : List Int
  levelBuffer : List Int
  delayTimeIndex : Int
  feedbackIndex : Int
  levelIndex : Int
  filterInitialized : Bool
  lastChangedPot : Pot
  lastUpdateTime : Nat
  lastDebugTime : Nat
  displayLog : List String
deriving DecidableEq, Repr

/-- The state at power-up: the initialisers of the static variables
(`controller.cpp:19-35`, `62`, `112`, `191`); static arrays are zero-filled. -/
def bootState : State :=
  { lastDelayTime := -1, lastFeedback := -1, lastLevel := -1,
    lastDisplayedDelayTime := -1, lastDisplayedFeedback := -1, lastDisplayedLevel := -1,
    delayTimeBuffer := List.replicate FILTER_SAMPLES 0,
    feedbackBuffer := List.replicate FILTER_SAMPLES 0,
    levelBuffer := List.replicate FILTER_SAMPLES 0,
    delayTimeIndex := 0, feedbackIndex := 0, levelIndex := 0,
    filterInitialized := false,
    lastChangedPot := Pot.POT_NONE,
    lastUpdateTime := 0, lastDebugTime := 0,
    displayLog := [] }

/-- One reading of the three potentiometers (`updateDelayTime`,
`updateFeedback`, `updateLevel`). -/
structure Reading where
  rawDelayTime : Int
  rawFeedback : Int
  rawLevel : Int
deriving DecidableEq, Repr

/-- What one poll reads from the hardware: the three potentiometers and the
three calls of `millis()` (`controller.cpp:192`, `205`, `209`). -/
structure PollInput where
  raw : Reading
  debugTime : Nat
  debugStamp : Nat
  currentTime : Nat
deriving DecidableEq, Repr

/-! ## Arbitration (`controller.cpp:132-188`) -/

/-- The pair `maxChange`, `potToShow` of the poll. -/
structure Candidate where
  maxChange : Int
  potToShow : Pot
deriving DecidableEq, Repr

/-- The search for the potentiometer that changed the most
(`controller.cpp:139-157`). -/
def selectCandidate (delayTimeChange feedbackChange levelChange : Int) : Candidate :=
  let c0 : Candidate := { maxChange := 0, potToShow := Pot.POT_NONE }
  let c1 : Candidate :=
    if delayTimeChange > c0.maxChange then
      { maxChange := delayTimeChange, potToShow := Pot.POT_DELAY_TIME } else c0
  let c2 : Candidate :=
    if feedbackChange > c1.maxChange then
      { maxChange := feedbackChange, potToShow := Pot.POT_FEEDBACK } else c1
  let c3 : Candidate :=
    if levelChange > c2.maxChange then
      { maxChange := levelChange, potToShow := Pot.POT_LEVEL } else c2
  c3

/-- The `switch` computing `currentPotChange` (`controller.cpp:165-171`). -/
def currentPotChange (lastChangedPot : Pot)
    (delayTimeChange feedbackChange levelChange : Int) : Int :=
  match lastChangedPot with
  | Pot.POT_DELAY_TIME => delayTimeChange
  | Pot.POT_FEEDBACK => feedbackChange
  | Pot.POT_LEVEL => levelChange
  | Pot.POT_NONE => 0

/-- The switch rule (`controller.cpp:164-188`): the value of `lastChangedPot`
after the block. -/
def arbitrate (lastChangedPot : Pot) (c : Candidate)
    (delayTimeChange feedbackChange levelChange : Int) : Pot :=
  if c.potToShow ≠ Pot.POT_NONE ∧ c.maxChange ≥ MIN_CHANGE_THRESHOLD then
    if lastChangedPot = Pot.POT_NONE then
      c.potToShow
    else if c.potToShow ≠ lastChangedPot then
      if c.maxChange ≥ currentPotChange lastChangedPot delayTimeChange feedbackChange levelChange * 3
      then c.potToShow else lastChangedPot
    else lastChangedPot
  else lastChangedPot

/-! ## Display gate (`controller.cpp:208-290`) -/

/-- The flags `valueChangedSignificantly` and `shouldUpdateTime`. -/
structure GateFlags where
  valueChangedSignificantly : Bool
  shouldUpdateTime : Bool
deriving DecidableEq, Repr

/-- The `switch` that tests the displayed potentiometer for a significant
change (`controller.cpp:216-248`). -/
def significantChange (lastChangedPot : Pot)
    (currentDelayTime currentFeedback currentLevel : Int)
    (lastDisplayedDelayTime lastDisplayedFeedback lastDisplayedLevel : Int) : GateFlags :=
  match lastChangedPot with
  | Pot.POT_DELAY_TIME =>
    let currentMs := adcToDelayTime currentDelayTime
    let lastMs := if lastDisplayedDelayTime = -1 then -1 else adcToDelayTime lastDisplayedDelayTime
    if lastDisplayedDelayTime = -1 ∨ c_abs (currentMs - lastMs) ≥ 5 then
      { valueChangedSignificantly := true, shouldUpdateTime := true }
    else { valueChangedSignificantly := false, shouldUpdateTime := false }
  | Pot.POT_FEEDBACK =>
    let currentPercent := adcToPercentage currentFeedback
    let lastPercent := if lastDisplayedFeedback = -1 then -1 else adcToPercentage lastDisplayedFeedback
    if lastDisplayedFeedback = -1 ∨ c_abs (currentPercent - lastPercent) ≥ 2 then
      { valueChangedSignificantly := true, shouldUpdateTime := false }
    else { valueChangedSignificantly := false, shouldUpdateTime := false }
  | Pot.POT_LEVEL =>
    let currentPercent := adcToPercentage currentLevel
    let lastPercent := if lastDisplayedLevel = -1 then -1 else adcToPercentage lastDisplayedLevel
    if lastDisplayedLevel = -1 ∨ c_abs (currentPercent - lastPercent) ≥ 2 then
      { valueChangedSignificantly := true, shouldUpdateTime := false }
    else { valueChangedSignificantly := false, shouldUpdateTime := false }
  | Pot.POT_NONE => { valueChangedSignificantly := false, shouldUpdateTime := true }

/-- The condition `shouldUpdate || shouldUpdateTime` of the redraw
(`controller.cpp:250-254`); `lastChangedPot` is its value after arbitration. -/
def shouldRedraw (flags : GateFlags) (potToShow lastChangedPot : Pot)
    (currentTime lastUpdateTime : Nat) : Bool :=
  let shouldUpdate :=
    flags.valueChangedSignificantly ||
    (decide (potToShow ≠ Pot.POT_NONE) && decide (potToShow ≠ lastChangedPot)) ||
    decide (ulongSub currentTime lastUpdateTime > UPDATE_INTERVAL)
  shouldUpdate || flags.shouldUpdateTime

/-- The body of the redraw (`controller.cpp:255-289`), applied to the state
whose `lastChangedPot` is already the arbitrated one. -/
def redraw (s : State) (currentDelayTime currentFeedback currentLevel : Int)
    (currentTime : Nat) : State :=
  let s1 : State :=
    match s.lastChangedPot with
    | Pot.POT_DELAY_TIME =>
      { s with
        displayLog := s.displayLog ++ ["Time\n" ++ fmtInt (adcToDelayTime currentDelayTime) ++ "ms"],
        lastDisplayedDelayTime := currentDelayTime }
    | Pot.POT_FEEDBACK =>
      { s with
        displayLog := s.displayLog ++ ["Feedback\n" ++ fmtInt (adcToPercentage currentFeedback) ++ "%"],
        lastDisplayedFeedback := currentFeedback }
    | Pot.POT_LEVEL =>
      { s with
        displayLog := s.displayLog ++ ["Level\n" ++ fmtInt (adcToPercentage currentLevel) ++ "%"],
        lastDisplayedLevel := currentLevel }
    | Pot.POT_NONE =>
      { s with
        displayLog := s.displayLog ++ ["Time\n" ++ fmtInt (adcToDelayTime currentDelayTime) ++ "ms"],
        lastChangedPot := Pot.POT_DELAY_TIME,
        lastDisplayedDelayTime := currentDelayTime }
  { s1 with lastUpdateTime := currentTime }

/-! ## The poll (`controller.cpp:111-296`) -/

/-- The three filter calls of the poll (`controller.cpp:128-130`). -/
structure Filtered where
  delay : FilterResult
  feedback : FilterResult
  level : FilterResult
deriving DecidableEq, Repr

/-- The filter calls `controller.cpp:128-130` on the state and the raw reading. -/
def filterAll (s : State) (raw : Reading) : Filtered :=
  { delay := filterValue s.filterInitialized s.delayTimeBuffer raw.rawDelayTime s.delayTimeIndex,
    feedback := filterValue s.filterInitialized s.feedbackBuffer raw.rawFeedback s.feedbackIndex,
    level := filterValue s.filterInitialized s.levelBuffer raw.rawLevel s.levelIndex }

/-- The value `delayTimeChange` of the poll (`controller.cpp:133`). -/
def delayTimeChange (s : State) (raw : Reading) : Int :=
  c_abs ((filterAll s raw).delay.value - s.lastDelayTime)

/-- The value `feedbackChange` of the poll (`controller.cpp:134`). -/
def feedbackChange (s : State) (raw : Reading) : Int :=
  c_abs ((filterAll s raw).feedback.value - s.lastFeedback)

/-- The value `levelChange` of the poll (`controller.cpp:135`). -/
def levelChange (s : State) (raw : Reading) : Int :=
  c_abs ((filterAll s raw).level.value - s.lastLevel)

/-- The candidate of the poll (`controller.cpp:139-157`). -/
def pollCandidate (s : State) (raw : Reading) : Candidate :=
  selectCandidate (delayTimeChange s raw) (feedbackChange s raw) (levelChange s raw)

/-- The value of `lastChangedPot` after the arbitration block of the poll
(`controller.cpp:164-188`). -/
def pollArbitrated (s : State) (raw : Reading) : Pot :=
  arbitrate s.lastChangedPot (pollCandidate s raw)
    (delayTimeChange s raw) (feedbackChange s raw) (levelChange s raw)

/-- Whether the poll enters the redraw block (`controller.cpp:209-254`). -/
def pollRedraws (s : State) (inp : PollInput) : Bool :=
  let f := filterAll s inp.raw
  let pot := pollArbitrated s inp.raw
  shouldRedraw
    (significantChange pot f.delay.value f.feedback.value f.level.value
      s.lastDisplayedDelayTime s.lastDisplayedFeedback s.lastDisplayedLevel)
    (pollCandidate s inp.raw).potToShow pot inp.currentTime s.lastUpdateTime

/-- The buffers and indices after the three filter calls
(`controller.cpp:128-130`). -/
def storeFilters (s : State) (f : Filtered) : State :=
  { s with
    delayTimeBuffer := f.delay.buffer, delayTimeIndex := f.delay.index,
    feedbackBuffer := f.feedback.buffer, feedbackIndex := f.feedback.index,
    levelBuffer := f.level.buffer, levelIndex := f.level.index }

/-- The diagnostic block (`controller.cpp:191-206`): it prints to `Serial` and
stamps `lastDebugTime`. -/
def diagnostics (s : State) (debugTime debugStamp : Nat) : State :=
  { s with
    lastDebugTime :=
      if ulongSub debugTime s.lastDebugTime > 1000 then debugStamp else s.lastDebugTime }

/-- The function `updatePotentiometersAndDisplay` (`controller.cpp:111-296`). -/
def updatePotentiometersAndDisplay (s : State) (inp : PollInput) : State :=
  let f := filterAll s inp.raw
  -- the filters have written the buffers and indices (lines 128-130)
  let s1 : State := storeFilters s f
  -- arbitration (lines 132-188)
  let s2 : State := { s1 with lastChangedPot := pollArbitrated s inp.raw }
  -- diagnostics (lines 191-206)
  let s3 : State := diagnostics s2 inp.debugTime inp.debugStamp
  -- display gate (lines 208-290)
  let s4 : State :=
    if pollRedraws s inp then
      redraw s3 f.delay.value f.feedback.value f.level.value inp.currentTime
    else s3
  -- stored values (lines 293-295)
  { s4 with
    lastDelayTime := f.delay.value, lastFeedback := f.feedback.value,
    lastLevel := f.level.value }

/-! ## Initialisation (`controller.cpp:76-109`) -/

/-- One iteration of the priming loop (`controller.cpp:85-90`): the state and
the temporaries `tempDelay`, `tempFeedback`, `tempLevel`. -/
def initLoopBody (st : State × Reading) (r : Reading) : State × Reading :=
  let s := st.1
  let f := filterAll s r
  (storeFilters s f, r)

/-- The first `n` iterations of the priming loop (`controller.cpp:84-92`);
`adc i` is the reading of iteration `i`.  The temporaries are uninitialised
before the loop; they are written in every iteration before they are read. -/
def initLoopUpTo (n : Nat) (s : State) (adc : Nat → Reading) : State × Reading :=
  (List.range n).foldl (fun st i => initLoopBody st (adc i))
    (s, { rawDelayTime := 0, rawFeedback := 0, rawLevel := 0 })

/-- The priming loop (`controller.cpp:84-92`): `FILTER_SAMPLES` iterations. -/
def initLoop (s : State) (adc : Nat → Reading) : State × Reading :=
  initLoopUpTo FILTER_SAMPLES s adc

/-- The state at `controller.cpp:93`, after the loop and the assignment
`filterInitialized = true`. -/
def initPrimed (s : State) (adc : Nat → Reading) : State :=
  { (initLoop s adc).1 with filterInitialized := true }

/-- The function `initPotentiometerController` (`controller.cpp:76-109`). -/
def initPotentiometerController (s : State) (adc : Nat → Reading) : State :=
  let s1 : State := initPrimed s adc
  let f := filterAll s1 (initLoop s adc).2
  let s2 : State :=
    { storeFilters s1 f with
      lastDelayTime := f.delay.value, lastFeedback := f.feedback.value,
      lastLevel := f.level.value }
  { s2 with
    displayLog := s2.displayLog ++ ["Time: " ++ fmtInt (adcToDelayTime s2.lastDelayTime) ++ "ms"],
    lastChangedPot := Pot.POT_DELAY_TIME }

/-- The state after a sequence of polls. -/
def runPolls (s : State) (inputs : List PollInput) : State :=
  inputs.foldl updatePotentiometersAndDisplay s

/-! ## Sample runs used to instantiate the theorems -/

/-- A constant stream of readings: delay 2000, feedback 1000, level 1000. -/
def sampleAdc : Nat → Reading :=
  fun _ => { rawDelayTime := 2000, rawFeedback := 1000, rawLevel := 1000 }

/-- The state after power-up and initialisation on `sampleAdc`. -/
def sampleState : State := initPotentiometerController bootState sampleAdc

/-- A poll input with the given raw readings, read at time `t`. -/
def pollAt (rawDelayTime rawFeedback rawLevel : Int) (t : Nat) : PollInput :=
  { raw := { rawDelayTime := rawDelayTime, rawFeedback := rawFeedback, rawLevel := rawLevel },
    debugTime := t, debugStamp := t, currentTime := t }

/-- Two polls after initialisation on `sampleAdc`: Feedback is turned (and
becomes active and displayed), then Delay is turned (and becomes active and
displayed). -/
def switchTrace : List PollInput :=
  [pollAt 2000 1300 1000 100, pollAt 2300 1000 1000 110]

/-- One poll after initialisation on `sampleAdc` with unchanged readings: the
Delay value is displayed. -/
def settleTrace : List PollInput := [pollAt 2000 1000 1000 100]

/-! ## Definitions used to state the properties -/

/-- The first potentiometer, in the order Delay, Feedback, Level, whose change
equals the largest of the three changes (the tie-break of the candidate as the
specification words it). -/
def firstMaxChannel (d f l : Int) : Pot :=
  if d = max d (max f l) then Pot.POT_DELAY_TIME
  else if f = max d (max f l) then Pot.POT_FEEDBACK
  else Pot.POT_LEVEL

/-- Successive calls of `filterValue` on one buffer and index, with the raw values
`raws` in order and the priming flag constant; the result of the last call
(the starting triple when there is no call). -/
def filterCalls (filterInitialized : Bool) (r : FilterResult) (raws : List Int) : FilterResult :=
  raws.foldl (fun r v => filterValue filterInitialized r.buffer v r.index) r

/-- The ring invariant of one filter: the buffer has ten slots, the index is in
`[0, 10)`, and for every `j < min m 10` the slot `j + 1` places behind the index
holds one of the `j + 1` most recent inputs (`hist` lists the inputs, newest
first). -/
def RingInv (m : Nat) (hist : List Int) (buffer : List Int) (index : Int) : Prop :=
  buffer.length = 10 ∧ 0 ≤ index ∧ index < 10 ∧
  ∀ j : Nat, j < 10 → j < m →
    ∃ x ∈ hist.take (j + 1), buffer[(index.toNat + 9 - j) % 10]? = some x

/-- The value `x` lies between the least and the greatest element of `window`. -/
def WithinRange (x : Int) (window : List Int) : Prop :=
  (∃ lo ∈ window, lo ≤ x) ∧ (∃ hi ∈ window, x ≤ hi)

/-- The three channels (potentiometers) of the controller. -/
inductive Channel where
  | delay
  | feedback
  | level
deriving DecidableEq, Repr

/-- The raw sample of a channel in a reading. -/
def Channel.raw (c : Channel) (r : Reading) : Int :=
  match c with
  | Channel.delay => r.rawDelayTime
  | Channel.feedback => r.rawFeedback
  | Channel.level => r.rawLevel

/-- The filter buffer of a channel. -/
def Channel.buffer (c : Channel) (s : State) : List Int :=
  match c with
  | Channel.delay => s.delayTimeBuffer
  | Channel.feedback => s.feedbackBuffer
  | Channel.level => s.levelBuffer

/-- The filter index of a channel. -/
def Channel.index (c : Channel) (s : State) : Int :=
  match c with
  | Channel.delay => s.delayTimeIndex
  | Channel.feedback => s.feedbackIndex
  | Channel.level => s.levelIndex

/-- The filter call of a channel among the three of a poll or of an
initialisation step. -/
def Channel.result (c : Channel) (f : Filtered) : FilterResult :=
  match c with
  | Channel.delay => f.delay
  | Channel.feedback => f.feedback
  | Channel.level => f.level

/-- The raw values passed to the filter of channel `c`, in order, by
`initPotentiometerController` (ten loop iterations, then the call after the
loop, which passes the last sample again) and by the polls `polls` after it. -/
def channelInputs (c : Channel) (adc : Nat → Reading) (polls : List PollInput) : List Int :=
  (List.range FILTER_SAMPLES).map (fun i => c.raw (adc i))
    ++ [c.raw (adc (FILTER_SAMPLES - 1))]
    ++ polls.map (fun p => c.raw p.raw)

/-- The last `FILTER_SAMPLES` values of a list of inputs (all of them when there
are fewer), newest first. -/
def lastInputs (inputs : List Int) : List Int := inputs.reverse.take FILTER_SAMPLES

/-- The value of the enumeration `lastChangedPot` that stands for a channel. -/
def Channel.pot (c : Channel) : Pot :=
  match c with
  | Channel.delay => Pot.POT_DELAY_TIME
  | Channel.feedback => Pot.POT_FEEDBACK
  | Channel.level => Pot.POT_LEVEL

/-- The stored previous filtered value of a channel (`lastDelayTime`,
`lastFeedback`, `lastLevel`). -/
def Channel.last (c : Channel) (s : State) : Int :=
  match c with
  | Channel.delay => s.lastDelayTime
  | Channel.feedback => s.lastFeedback
  | Channel.level => s.lastLevel

/-- The last displayed filtered value of a channel (`lastDisplayedDelayTime`,
`lastDisplayedFeedback`, `lastDisplayedLevel`); `-1` when unset. -/
def Channel.lastDisplayed (c : Channel) (s : State) : Int :=
  match c with
  | Channel.delay => s.lastDisplayedDelayTime
  | Channel.feedback => s.lastDisplayedFeedback
  | Channel.level => s.lastDisplayedLevel

/-- The unit conversion of a channel: milliseconds for Delay, percent for
Feedback and Level. -/
def Channel.convert (c : Channel) (x : Int) : Int :=
  match c with
  | Channel.delay => adcToDelayTime x
  | Channel.feedback => adcToPercentage x
  | Channel.level => adcToPercentage x

/-- The significant-change threshold of a channel in converted units: 5 ms for
Delay, 2 percent for Feedback and Level. -/
def Channel.threshold (c : Channel) : Int :=
  match c with
  | Channel.delay => 5
  | Channel.feedback => 2
  | Channel.level => 2

/-- The label of a channel on the display. -/
def Channel.label (c : Channel) : String :=
  match c with
  | Channel.delay => "Time"
  | Channel.feedback => "Feedback"
  | Channel.level => "Level"

/-- The unit suffix of a channel on the display. -/
def Channel.suffix (c : Channel) : String :=
  match c with
  | Channel.delay => "ms"
  | Channel.feedback => "%"
  | Channel.level => "%"

/-- The display body of a channel for a filtered value, as the specification
words it: label, line break, converted value, unit. -/
def Channel.body (c : Channel) (x : Int) : String :=
  c.label ++ "\n" ++ fmtInt (c.convert x) ++ c.suffix

/-- The significant-change test of the specification for channel `c`: the last
displayed value is unset, or the converted values differ by at least the
threshold of the channel. -/
def Channel.significant (c : Channel) (filtered lastDisplayed : Int) : Prop :=
  lastDisplayed = -1 ∨ c.threshold ≤ |c.convert filtered - c.convert lastDisplayed|

/-- The state handed to the display gate of a poll: filter buffers and indices
written, arbitration done, diagnostics done (`controller.cpp:128-206`). -/
def pollPreGate (s : State) (inp : PollInput) : State :=
  diagnostics
    { storeFilters s (filterAll s inp.raw) with lastChangedPot := pollArbitrated s inp.raw }
    inp.debugTime inp.debugStamp

/-- The flag `valueChangedSignificantly` of a poll (`controller.cpp:210-248`). -/
def pollSignificant (s : State) (inp : PollInput) : Bool :=
  (significantChange (pollArbitrated s inp.raw)
    (filterAll s inp.raw).delay.value (filterAll s inp.raw).feedback.value
    (filterAll s inp.raw).level.value
    s.lastDisplayedDelayTime s.lastDisplayedFeedback s.lastDisplayedLevel).valueChangedSignificantly

/-- The filter of channel `c` is well formed in state `s`: the buffer has
`FILTER_SAMPLES` slots and the index is in `[0, FILTER_SAMPLES)`, so that the
write `buffer[*index]` is within bounds. -/
def Channel.inBounds (c : Channel) (s : State) : Prop :=
  (c.buffer s).length = FILTER_SAMPLES ∧ 0 ≤ c.index s ∧ c.index s < FILTER_SAMPLES ∧
  (c.index s).toNat < (c.buffer s).length

/-- The state with the two time stamps `lastUpdateTime` and `lastDebugTime`
set to 0. -/
def eraseTime (s : State) : State :=
  { s with lastUpdateTime := 0, lastDebugTime := 0 }

/-- The poll input with the three `millis()` readings set to 0. -/
def zeroTime (inp : PollInput) : PollInput :=
  { raw := inp.raw, debugTime := 0, debugStamp := 0, currentTime := 0 }

/-- Every poll of the run sets `valueChangedSignificantly`. -/
def allSignificant : State → List PollInput → Bool
  | _, [] => true
  | s, inp :: rest =>
    pollSignificant s inp && allSignificant (updatePotentiometersAndDisplay s inp) rest

/-- The stream of readings that are 0 on all three channels. -/
def zeroAdc : Nat → Reading :=
  fun _ => { rawDelayTime := 0, rawFeedback := 0, rawLevel := 0 }

/-- The state after power-up and initialisation on `zeroAdc`. -/
def zeroState : State := initPotentiometerController bootState zeroAdc

/-- The filtered Delay value after `k` polls of the ramp: `k` slots of the ring
hold 4095 and the others 0. -/
def rampFiltered (k : Nat) : Int := Int.tdiv ((k : Int) * 4095) 10

/-- The Delay time in milliseconds displayed after `k` polls of the ramp. -/
def rampMs (k : Nat) : Int := adcToDelayTime (rampFiltered k)

/-! ## Lemmas on the filter -/

theorem list_length_ten (l : List Int) (h : l.length = 10) :
    ∃ a0 a1 a2 a3 a4 a5 a6 a7 a8 a9, l = [a0, a1, a2, a3, a4, a5, a6, a7, a8, a9] := by
  match l, h with
  | [a0, a1, a2, a3, a4, a5, a6, a7, a8, a9], _ =>
    exact ⟨a0, a1, a2, a3, a4, a5, a6, a7, a8, a9, rfl⟩

theorem fillBuffer_eq (buffer : List Int) (v : Int) (h : buffer.length = 10) :
    fillBuffer buffer v = List.replicate 10 v := by
  obtain ⟨a0, a1, a2, a3, a4, a5, a6, a7, a8, a9, rfl⟩ := list_length_ten buffer h
  rfl

theorem sumBuffer_eq (buffer : List Int) (h : buffer.length = 10) :
    sumBuffer buffer = buffer.sum := by
  obtain ⟨a0, a1, a2, a3, a4, a5, a6, a7, a8, a9, rfl⟩ := list_length_ten buffer h
  simp [sumBuffer, List.range, List.range.loop]
  omega

theorem tmod_succ_index (i : Int) (h0 : 0 ≤ i) :
    Int.tmod (i + 1) (FILTER_SAMPLES : Nat) = (i + 1) % 10 := by
  rw [Int.tmod_eq_emod (by omega) (by simp)]
  rfl

theorem filterValue_primed_buffer (buffer : List Int) (v i : Int) :
    (filterValue true buffer v i).buffer = buffer.set i.toNat v := by
  simp [filterValue]

theorem filterValue_unprimed_buffer (buffer : List Int) (v i : Int)
    (h : buffer.length = 10) :
    (filterValue false buffer v i).buffer = List.replicate 10 v := by
  simp only [filterValue, Bool.not_false, if_true, fillBuffer_eq buffer v h]
  apply List.ext_getElem?
  intro j
  simp only [List.getElem?_set, List.length_replicate, List.getElem?_replicate]
  split_ifs <;> first | rfl | omega

theorem filterValue_index (b : Bool) (buffer : List Int) (v i : Int) (h0 : 0 ≤ i) :
    (filterValue b buffer v i).index = (i + 1) % 10 := by
  simp only [filterValue]
  exact tmod_succ_index i h0

theorem filterValue_length (b : Bool) (buffer : List Int) (v i : Int)
    (h : buffer.length = 10) : (filterValue b buffer v i).buffer.length = 10 := by
  cases b
  · rw [filterValue_unprimed_buffer buffer v i h]; simp
  · rw [filterValue_primed_buffer]; simpa using h

theorem filterValue_value (b : Bool) (buffer : List Int) (v i : Int)
    (h : buffer.length = 10) :
    (filterValue b buffer v i).value = Int.tdiv (filterValue b buffer v i).buffer.sum 10 := by
  have hl := filterValue_length b buffer v i h
  rw [← sumBuffer_eq _ hl]
  rfl

/-! ## Lemmas on the poll -/

theorem c_abs_nonneg (x : Int) : 0 ≤ c_abs x := by
  unfold c_abs; split <;> omega

theorem c_abs_eq_abs (x : Int) : c_abs x = |x| := by
  unfold c_abs
  split
  · rw [abs_of_neg (by assumption)]
  · rw [abs_of_nonneg (by omega)]

theorem redraw_lastChangedPot (s : State) (d f l : Int) (t : Nat) :
    (redraw s d f l t).lastChangedPot =
      if s.lastChangedPot = Pot.POT_NONE then Pot.POT_DELAY_TIME else s.lastChangedPot := by
  cases h : s.lastChangedPot <;> simp [redraw, h]

theorem poll_lastChangedPot (s : State) (inp : PollInput) :
    (updatePotentiometersAndDisplay s inp).lastChangedPot =
      if pollRedraws s inp = true ∧ pollArbitrated s inp.raw = Pot.POT_NONE
      then Pot.POT_DELAY_TIME else pollArbitrated s inp.raw := by
  cases hr : pollRedraws s inp <;>
    simp [updatePotentiometersAndDisplay, hr, redraw_lastChangedPot, diagnostics, storeFilters]

theorem arbitrate_ne_none (p : Pot) (c : Candidate) (d f l : Int) (hp : p ≠ Pot.POT_NONE) :
    arbitrate p c d f l ≠ Pot.POT_NONE := by
  unfold arbitrate
  split_ifs <;> simp_all

theorem poll_lastChangedPot_of_active (s : State) (inp : PollInput)
    (h : s.lastChangedPot ≠ Pot.POT_NONE) :
    (updatePotentiometersAndDisplay s inp).lastChangedPot = pollArbitrated s inp.raw := by
  rw [poll_lastChangedPot]
  have := arbitrate_ne_none s.lastChangedPot (pollCandidate s inp.raw)
    (delayTimeChange s inp.raw) (feedbackChange s inp.raw) (levelChange s inp.raw) h
  simp [pollArbitrated, this]

theorem selectCandidate_spec (d f l : Int) (hd : 0 ≤ d) (hf : 0 ≤ f) (hl : 0 ≤ l) :
    (selectCandidate d f l).maxChange = max d (max f l) ∧
    currentPotChange (selectCandidate d f l).potToShow d f l = (selectCandidate d f l).maxChange := by
  unfold selectCandidate
  dsimp only
  split_ifs with h1 h2 h3 h3 h2 h3 h3 <;> dsimp only [currentPotChange] at * <;>
    (refine ⟨?_, ?_⟩ <;> omega)

/-! ## The ring invariant -/

theorem mem_take_mono {x : Int} : ∀ (l : List Int) (a b : Nat), a ≤ b →
    x ∈ l.take a → x ∈ l.take b
  | [], _, _, _, h => by simp at h
  | y :: l, 0, _, _, h => by simp at h
  | y :: l, a + 1, 0, hab, _ => by omega
  | y :: l, a + 1, b + 1, hab, h => by
    simp only [List.take_succ_cons, List.mem_cons] at h ⊢
    rcases h with h | h
    · exact Or.inl h
    · exact Or.inr (mem_take_mono l a b (by omega) h)

theorem ringInv_start (buffer : List Int) (index : Int) (hlen : buffer.length = 10)
    (h0 : 0 ≤ index) (h1 : index < 10) : RingInv 0 [] buffer index :=
  ⟨hlen, h0, h1, fun j _ hj => absurd hj (Nat.not_lt_zero j)⟩

theorem ringInv_primed (m : Nat) (hist buffer : List Int) (index v : Int)
    (h : RingInv m hist buffer index) :
    RingInv (m + 1) (v :: hist) (filterValue true buffer v index).buffer
      (filterValue true buffer v index).index := by
  obtain ⟨hlen, h0, h1, hslots⟩ := h
  rw [filterValue_index true buffer v index h0]
  refine ⟨filterValue_length true buffer v index hlen, by omega, by omega, ?_⟩
  intro j hj hjm
  rw [filterValue_primed_buffer, List.getElem?_set]
  rcases Nat.eq_zero_or_pos j with rfl | hpos
  · refine ⟨v, by simp, ?_⟩
    have hp : (((index + 1) % 10).toNat + 9 - 0) % 10 = index.toNat := by omega
    have hlt : index.toNat < buffer.length := by omega
    rw [hp, if_pos rfl, if_pos hlt]
  · obtain ⟨x, hx, hbx⟩ := hslots (j - 1) (by omega) (by omega)
    refine ⟨x, ?_, ?_⟩
    · have hj1 : j - 1 + 1 = j := by omega
      rw [hj1] at hx
      rw [List.take_succ_cons]
      exact List.mem_cons_of_mem v hx
    · have hp : (((index + 1) % 10).toNat + 9 - j) % 10 = (index.toNat + 9 - (j - 1)) % 10 := by
        omega
      have hne : index.toNat ≠ (index.toNat + 9 - (j - 1)) % 10 := by omega
      rw [hp, if_neg hne]
      exact hbx

theorem ringInv_unprimed (m : Nat) (hist buffer : List Int) (index v : Int)
    (hlen : buffer.length = 10) (h0 : 0 ≤ index) :
    RingInv m (v :: hist) (filterValue false buffer v index).buffer
      (filterValue false buffer v index).index := by
  rw [filterValue_index false buffer v index h0]
  refine ⟨filterValue_length false buffer v index hlen, by omega, by omega, ?_⟩
  intro j hj _
  refine ⟨v, by simp, ?_⟩
  rw [filterValue_unprimed_buffer buffer v index hlen, List.getElem?_replicate]
  have : (((index + 1) % 10).toNat + 9 - j) % 10 < 10 := Nat.mod_lt _ (by decide)
  simp [this]

/-- Once all ten slots are known, a further call with either value of the
priming flag keeps them known. -/
theorem ringInv_step (hist buffer : List Int) (index v : Int) (b : Bool)
    (h : RingInv 10 hist buffer index) :
    RingInv 10 (v :: hist) (filterValue b buffer v index).buffer
      (filterValue b buffer v index).index := by
  cases b
  · exact ringInv_unprimed 10 hist buffer index v h.1 h.2.1
  · obtain ⟨hl, h0, h1, hs⟩ := ringInv_primed 10 hist buffer index v h
    exact ⟨hl, h0, h1, fun j hj _ => hs j hj (by omega)⟩

theorem ringInv_mem (m : Nat) (hist buffer : List Int) (index : Int)
    (h : RingInv m hist buffer index) (hm : 10 ≤ m) :
    ∀ x ∈ buffer, x ∈ hist.take 10 := by
  obtain ⟨hlen, h0, h1, hslots⟩ := h
  intro x hx
  obtain ⟨p, hp, rfl⟩ := List.getElem_of_mem hx
  have hp10 : p < 10 := by omega
  obtain ⟨y, hy, hby⟩ := hslots ((index.toNat + 9 - p) % 10) (Nat.mod_lt _ (by decide)) (by omega)
  have hpos : (index.toNat + 9 - (index.toNat + 9 - p) % 10) % 10 = p := by omega
  rw [hpos, List.getElem?_eq_getElem hp] at hby
  have hxy : buffer[p] = y := by simpa using hby
  rw [hxy]
  exact mem_take_mono hist _ 10 (by omega) hy

/-! ## The truncated mean lies between the extremes -/

theorem sum_bounds (a b : Int) : ∀ (l : List Int), (∀ x ∈ l, a ≤ x ∧ x ≤ b) →
    (l.length : Int) * a ≤ l.sum ∧ l.sum ≤ (l.length : Int) * b
  | [], _ => by simp
  | y :: l, h => by
    have ih := sum_bounds a b l (fun x hx => h x (List.mem_cons_of_mem y hx))
    have hy := h y (List.mem_cons_self y l)
    simp only [List.length_cons, List.sum_cons, Nat.cast_add, Nat.cast_one]
    constructor <;> nlinarith [ih.1, ih.2, hy.1, hy.2]

theorem tdiv_ten_bounds (s a b : Int) (ha : 10 * a ≤ s) (hb : s ≤ 10 * b) :
    a ≤ Int.tdiv s 10 ∧ Int.tdiv s 10 ≤ b := by
  rcases le_or_lt 0 s with hs | hs
  · rw [Int.tdiv_eq_ediv hs (by decide)]
    omega
  · have h1 : Int.tdiv s 10 = -(Int.tdiv (-s) 10) := by
      rw [Int.neg_tdiv, neg_neg]
    rw [h1, Int.tdiv_eq_ediv (by omega) (by decide)]
    omega

theorem exists_least : ∀ (l : List Int), l ≠ [] → ∃ a ∈ l, ∀ x ∈ l, a ≤ x
  | [], h => absurd rfl h
  | [y], _ => ⟨y, by simp, by simp⟩
  | y :: z :: l, _ => by
    obtain ⟨a, ha, hmin⟩ := exists_least (z :: l) (by simp)
    rcases le_total y a with hya | hay
    · exact ⟨y, by simp, fun x hx => by
        rcases List.mem_cons.mp hx with rfl | hx
        · exact le_refl _
        · exact le_trans hya (hmin x hx)⟩
    · exact ⟨a, List.mem_cons_of_mem y ha, fun x hx => by
        rcases List.mem_cons.mp hx with rfl | hx
        · exact hay
        · exact hmin x hx⟩

theorem exists_greatest : ∀ (l : List Int), l ≠ [] → ∃ b ∈ l, ∀ x ∈ l, x ≤ b
  | [], h => absurd rfl h
  | [y], _ => ⟨y, by simp, by simp⟩
  | y :: z :: l, _ => by
    obtain ⟨b, hb, hmax⟩ := exists_greatest (z :: l) (by simp)
    rcases le_total b y with hby | hyb
    · exact ⟨y, by simp, fun x hx => by
        rcases List.mem_cons.mp hx with rfl | hx
        · exact le_refl _
        · exact le_trans (hmax x hx) hby⟩
    · exact ⟨b, List.mem_cons_of_mem y hb, fun x hx => by
        rcases List.mem_cons.mp hx with rfl | hx
        · exact hyb
        · exact hmax x hx⟩

/-- The truncated mean of ten integers lies between two of them. -/
theorem mean_withinRange (l : List Int) (hlen : l.length = 10) :
    WithinRange (Int.tdiv l.sum 10) l := by
  have hne : l ≠ [] := by intro h; simp [h] at hlen
  obtain ⟨a, ha, hmin⟩ := exists_least l hne
  obtain ⟨b, hb, hmax⟩ := exists_greatest l hne
  have hs := sum_bounds a b l (fun x hx => ⟨hmin x hx, hmax x hx⟩)
  rw [hlen] at hs
  have ht := tdiv_ten_bounds l.sum a b (by simpa using hs.1) (by simpa using hs.2)
  exact ⟨⟨a, ha, ht.1⟩, ⟨b, hb, ht.2⟩⟩

theorem withinRange_mono (x : Int) (l w : List Int) (h : WithinRange x l)
    (hsub : ∀ y ∈ l, y ∈ w) : WithinRange x w := by
  obtain ⟨⟨a, ha, hax⟩, ⟨b, hb, hxb⟩⟩ := h
  exact ⟨⟨a, hsub a ha, hax⟩, ⟨b, hsub b hb, hxb⟩⟩

/-- The value returned by a call made under the full ring invariant lies within
the range of the ten most recent inputs, the new one included. -/
theorem filterValue_withinRange (hist buffer : List Int) (index v : Int) (b : Bool)
    (h : RingInv 10 hist buffer index) :
    WithinRange (filterValue b buffer v index).value ((v :: hist).take 10) := by
  have hstep := ringInv_step hist buffer index v b h
  rw [filterValue_value b buffer v index h.1]
  exact withinRange_mono _ _ _ (mean_withinRange _ hstep.1)
    (ringInv_mem 10 _ _ _ hstep (le_refl _))

/-! ## Sequences of calls -/

theorem filterCalls_snoc (b : Bool) (r : FilterResult) (raws : List Int) (v : Int) :
    filterCalls b r (raws ++ [v]) =
      filterValue b (filterCalls b r raws).buffer v (filterCalls b r raws).index := by
  simp [filterCalls, List.foldl_append]

theorem filterCalls_primed_inv : ∀ (raws : List Int) (m : Nat) (hist : List Int)
    (r : FilterResult), RingInv m hist r.buffer r.index →
    RingInv (m + raws.length) (raws.reverse ++ hist)
      (filterCalls true r raws).buffer (filterCalls true r raws).index
  | [], m, hist, r, h => by simpa [filterCalls] using h
  | v :: raws, m, hist, r, h => by
    have hstep := ringInv_primed m hist r.buffer r.index v h
    have ih := filterCalls_primed_inv raws (m + 1) (v :: hist)
      (filterValue true r.buffer v r.index) hstep
    have hm : m + (v :: raws).length = m + 1 + raws.length := by
      simp only [List.length_cons]; omega
    have hh : (v :: raws).reverse ++ hist = raws.reverse ++ v :: hist := by simp
    rw [hm, hh]
    exact ih

theorem filterCalls_step_inv (b : Bool) : ∀ (raws : List Int) (hist : List Int)
    (r : FilterResult), RingInv 10 hist r.buffer r.index →
    RingInv 10 (raws.reverse ++ hist)
      (filterCalls b r raws).buffer (filterCalls b r raws).index
  | [], hist, r, h => by simpa [filterCalls] using h
  | v :: raws, hist, r, h => by
    have hstep := ringInv_step hist r.buffer r.index v b h
    have ih := filterCalls_step_inv b raws (v :: hist) (filterValue b r.buffer v r.index) hstep
    have hh : (v :: raws).reverse ++ hist = raws.reverse ++ v :: hist := by simp
    rw [hh]
    exact ih

theorem buffer_eq_replicate (buffer : List Int) (v : Int) (hlen : buffer.length = 10)
    (h : ∀ x ∈ buffer, x = v) : buffer = List.replicate 10 v := by
  rw [← hlen]
  exact List.eq_replicate_of_mem h

/-! ## The channels through initialisation and polls -/

theorem channel_result_filterAll (c : Channel) (s : State) (r : Reading) :
    c.result (filterAll s r) =
      filterValue s.filterInitialized (c.buffer s) (c.raw r) (c.index s) := by
  cases c <;> rfl

theorem redraw_frame (s : State) (d f l : Int) (t : Nat) :
    (redraw s d f l t).delayTimeBuffer = s.delayTimeBuffer ∧
    (redraw s d f l t).feedbackBuffer = s.feedbackBuffer ∧
    (redraw s d f l t).levelBuffer = s.levelBuffer ∧
    (redraw s d f l t).delayTimeIndex = s.delayTimeIndex ∧
    (redraw s d f l t).feedbackIndex = s.feedbackIndex ∧
    (redraw s d f l t).levelIndex = s.levelIndex ∧
    (redraw s d f l t).filterInitialized = s.filterInitialized := by
  cases h : s.lastChangedPot <;> simp [redraw, h]

theorem poll_filterInitialized (s : State) (inp : PollInput) :
    (updatePotentiometersAndDisplay s inp).filterInitialized = s.filterInitialized := by
  cases hr : pollRedraws s inp <;>
    simp [updatePotentiometersAndDisplay, hr, redraw_frame, diagnostics, storeFilters]

theorem poll_channel_buffer (c : Channel) (s : State) (inp : PollInput) :
    c.buffer (updatePotentiometersAndDisplay s inp) = (c.result (filterAll s inp.raw)).buffer := by
  cases c <;> cases hr : pollRedraws s inp <;>
    simp [Channel.buffer, Channel.result, updatePotentiometersAndDisplay, hr, redraw_frame,
      diagnostics, storeFilters]

theorem poll_channel_index (c : Channel) (s : State) (inp : PollInput) :
    c.index (updatePotentiometersAndDisplay s inp) = (c.result (filterAll s inp.raw)).index := by
  cases c <;> cases hr : pollRedraws s inp <;>
    simp [Channel.index, Channel.result, updatePotentiometersAndDisplay, hr, redraw_frame,
      diagnostics, storeFilters]

theorem runPolls_snoc (s : State) (pre : List PollInput) (inp : PollInput) :
    runPolls s (pre ++ [inp]) = updatePotentiometersAndDisplay (runPolls s pre) inp := by
  simp [runPolls, List.foldl_append]

theorem runPolls_ringInv (c : Channel) : ∀ (pre : List PollInput) (s : State) (hist : List Int),
    RingInv 10 hist (c.buffer s) (c.index s) →
    RingInv 10 ((pre.map (fun p => c.raw p.raw)).reverse ++ hist)
      (c.buffer (runPolls s pre)) (c.index (runPolls s pre))
  | [], s, hist, h => by simpa [runPolls] using h
  | inp :: pre, s, hist, h => by
    have hstep := ringInv_step hist (c.buffer s) (c.index s) (c.raw inp.raw)
      s.filterInitialized h
    rw [← channel_result_filterAll, ← poll_channel_buffer, ← poll_channel_index] at hstep
    have ih := runPolls_ringInv c pre (updatePotentiometersAndDisplay s inp) _ hstep
    have hh : ((inp :: pre).map (fun p => c.raw p.raw)).reverse ++ hist =
        (pre.map (fun p => c.raw p.raw)).reverse ++ c.raw inp.raw :: hist := by simp
    rw [hh]
    exact ih

theorem initLoopUpTo_succ (n : Nat) (s : State) (adc : Nat → Reading) :
    initLoopUpTo (n + 1) s adc = initLoopBody (initLoopUpTo n s adc) (adc n) := by
  simp [initLoopUpTo, List.range_succ, List.foldl_append]

theorem initLoopBody_channel (c : Channel) (st : State × Reading) (r : Reading) :
    c.buffer (initLoopBody st r).1 = (c.result (filterAll st.1 r)).buffer ∧
    c.index (initLoopBody st r).1 = (c.result (filterAll st.1 r)).index ∧
    (initLoopBody st r).1.filterInitialized = st.1.filterInitialized ∧
    (initLoopBody st r).2 = r := by
  cases c <;> simp [initLoopBody, storeFilters, Channel.buffer, Channel.index, Channel.result]

/-- The inputs of channel `c` in the first `n` loop iterations, newest first. -/
theorem initLoopUpTo_inv (c : Channel) (s : State) (adc : Nat → Reading)
    (hflag : s.filterInitialized = false) (hlen : (c.buffer s).length = 10)
    (h0 : 0 ≤ c.index s) (h1 : c.index s < 10) : ∀ n : Nat,
    (initLoopUpTo n s adc).1.filterInitialized = false ∧
    (0 < n → (initLoopUpTo n s adc).2 = adc (n - 1)) ∧
    RingInv (if n = 0 then 0 else 10) ((List.range n).map (fun i => c.raw (adc i))).reverse
      (c.buffer (initLoopUpTo n s adc).1) (c.index (initLoopUpTo n s adc).1)
  | 0 => by
    refine ⟨by simpa [initLoopUpTo] using hflag, by simp, ?_⟩
    simpa [initLoopUpTo] using ringInv_start _ _ hlen h0 h1
  | n + 1 => by
    obtain ⟨ihf, _, ihr⟩ := initLoopUpTo_inv c s adc hflag hlen h0 h1 n
    obtain ⟨hb, hi, hf, ht⟩ := initLoopBody_channel c (initLoopUpTo n s adc) (adc n)
    rw [initLoopUpTo_succ]
    refine ⟨by rw [hf]; exact ihf, fun _ => by simpa using ht, ?_⟩
    rw [hb, hi, channel_result_filterAll, ihf]
    have hh : ((List.range (n + 1)).map (fun i => c.raw (adc i))).reverse =
        c.raw (adc n) :: ((List.range n).map (fun i => c.raw (adc i))).reverse := by
      simp [List.range_succ]
    rw [hh, if_neg (Nat.succ_ne_zero n)]
    exact ringInv_unprimed 10 _ _ _ _ ihr.1 ihr.2.1

theorem filterValue_unprimed_withinRange (hist buffer : List Int) (index v : Int)
    (hlen : buffer.length = 10) (h0 : 0 ≤ index) :
    WithinRange (filterValue false buffer v index).value ((v :: hist).take 10) := by
  have hstep := ringInv_unprimed 10 hist buffer index v hlen h0
  rw [filterValue_value false buffer v index hlen]
  exact withinRange_mono _ _ _ (mean_withinRange _ hstep.1)
    (ringInv_mem 10 _ _ _ hstep (le_refl _))

theorem lastInputs_loop (c : Channel) (adc : Nat → Reading) (n : Nat) (hn : n < 10) :
    lastInputs ((channelInputs c adc []).take (n + 1)) =
      (c.raw (adc n) :: ((List.range n).map (fun i => c.raw (adc i))).reverse).take 10 := by
  interval_cases n <;> rfl

theorem lastInputs_polls (c : Channel) (adc : Nat → Reading) (polls : List PollInput) :
    lastInputs (channelInputs c adc polls) =
      ((polls.map (fun p => c.raw p.raw)).reverse ++
        c.raw (adc 9) :: ((List.range 10).map (fun i => c.raw (adc i))).reverse).take 10 := by
  simp [lastInputs, channelInputs]

theorem initPrimed_channel (c : Channel) (s : State) (adc : Nat → Reading) :
    c.buffer (initPrimed s adc) = c.buffer (initLoop s adc).1 ∧
    c.index (initPrimed s adc) = c.index (initLoop s adc).1 ∧
    (initPrimed s adc).filterInitialized = true := by
  cases c <;> simp [initPrimed, Channel.buffer, Channel.index]

theorem init_channel (c : Channel) (s : State) (adc : Nat → Reading) :
    c.buffer (initPotentiometerController s adc) =
      (c.result (filterAll (initPrimed s adc) (initLoop s adc).2)).buffer ∧
    c.index (initPotentiometerController s adc) =
      (c.result (filterAll (initPrimed s adc) (initLoop s adc).2)).index := by
  cases c <;>
    simp [initPotentiometerController, storeFilters, Channel.buffer, Channel.index, Channel.result]

/-- The ring invariant of channel `c` at the end of the priming loop, at the
call after the loop, and after initialisation. -/
theorem init_ringInv (c : Channel) (s : State) (adc : Nat → Reading)
    (hflag : s.filterInitialized = false) (hlen : (c.buffer s).length = 10)
    (h0 : 0 ≤ c.index s) (h1 : c.index s < 10) :
    (initLoop s adc).2 = adc 9 ∧
    RingInv 10 ((List.range 10).map (fun i => c.raw (adc i))).reverse
      (c.buffer (initPrimed s adc)) (c.index (initPrimed s adc)) ∧
    RingInv 10 (c.raw (adc 9) :: ((List.range 10).map (fun i => c.raw (adc i))).reverse)
      (c.buffer (initPotentiometerController s adc))
      (c.index (initPotentiometerController s adc)) := by
  obtain ⟨_, ht, hr⟩ := initLoopUpTo_inv c s adc hflag hlen h0 h1 10
  have ht9 : (initLoop s adc).2 = adc 9 := ht (by decide)
  obtain ⟨hb, hi, _⟩ := initPrimed_channel c s adc
  have hr10 : RingInv 10 ((List.range 10).map (fun i => c.raw (adc i))).reverse
      (c.buffer (initPrimed s adc)) (c.index (initPrimed s adc)) := by
    rw [hb, hi]
    exact hr
  refine ⟨ht9, hr10, ?_⟩
  obtain ⟨hb2, hi2⟩ := init_channel c s adc
  rw [hb2, hi2, channel_result_filterAll, ht9]
  exact ringInv_step _ _ _ _ _ hr10

/-! ## Lemmas on the display gate -/

theorem significantChange_channel (c : Channel) (cd cf cl ld lf ll : Int) :
    (significantChange c.pot cd cf cl ld lf ll).valueChangedSignificantly = true ↔
      match c with
      | Channel.delay => Channel.delay.significant cd ld
      | Channel.feedback => Channel.feedback.significant cf lf
      | Channel.level => Channel.level.significant cl ll := by
  cases c
  · by_cases h : ld = -1
    · simp [significantChange, Channel.pot, Channel.significant, h]
    · simp only [significantChange, Channel.pot, Channel.significant, Channel.convert,
        Channel.threshold, h, c_abs_eq_abs, if_false, false_or, ge_iff_le]
      split_ifs with h2 <;> simp [h2]
  · by_cases h : lf = -1
    · simp [significantChange, Channel.pot, Channel.significant, h]
    · simp only [significantChange, Channel.pot, Channel.significant, Channel.convert,
        Channel.threshold, h, c_abs_eq_abs, if_false, false_or, ge_iff_le]
      split_ifs with h2 <;> simp [h2]
  · by_cases h : ll = -1
    · simp [significantChange, Channel.pot, Channel.significant, h]
    · simp only [significantChange, Channel.pot, Channel.significant, Channel.convert,
        Channel.threshold, h, c_abs_eq_abs, if_false, false_or, ge_iff_le]
      split_ifs with h2 <;> simp [h2]

theorem shouldRedraw_of_significant (flags : GateFlags) (p q : Pot) (t u : Nat)
    (h : flags.valueChangedSignificantly = true) : shouldRedraw flags p q t u = true := by
  simp [shouldRedraw, h]

theorem shouldRedraw_of_elapsed (flags : GateFlags) (p q : Pot) (t u : Nat)
    (h : ulongSub t u > UPDATE_INTERVAL) : shouldRedraw flags p q t u = true := by
  simp only [shouldRedraw, decide_eq_true h]
  simp

theorem redraw_channel (c : Channel) (s : State) (d f l : Int) (t : Nat)
    (h : s.lastChangedPot = c.pot) :
    (redraw s d f l t).displayLog =
      s.displayLog ++ [c.body (c.result
        { delay := { buffer := [], index := 0, value := d },
          feedback := { buffer := [], index := 0, value := f },
          level := { buffer := [], index := 0, value := l } }).value] ∧
    (redraw s d f l t).lastDisplayedDelayTime =
      (if c = Channel.delay then d else s.lastDisplayedDelayTime) ∧
    (redraw s d f l t).lastDisplayedFeedback =
      (if c = Channel.feedback then f else s.lastDisplayedFeedback) ∧
    (redraw s d f l t).lastDisplayedLevel =
      (if c = Channel.level then l else s.lastDisplayedLevel) ∧
    (redraw s d f l t).lastUpdateTime = t := by
  cases c <;> simp only [Channel.pot] at h <;>
    simp [redraw, h, Channel.body, Channel.label, Channel.suffix, Channel.convert,
      Channel.result]

theorem redraw_none (s : State) (d f l : Int) (t : Nat)
    (h : s.lastChangedPot = Pot.POT_NONE) :
    (redraw s d f l t).displayLog = s.displayLog ++ [Channel.delay.body d] ∧
    (redraw s d f l t).lastChangedPot = Pot.POT_DELAY_TIME ∧
    (redraw s d f l t).lastUpdateTime = t := by
  simp [redraw, h, Channel.body, Channel.label, Channel.suffix, Channel.convert]

theorem poll_eq (s : State) (inp : PollInput) :
    updatePotentiometersAndDisplay s inp =
      { (if pollRedraws s inp = true then
          redraw (pollPreGate s inp)
            (filterAll s inp.raw).delay.value (filterAll s inp.raw).feedback.value
            (filterAll s inp.raw).level.value inp.currentTime
         else pollPreGate s inp) with
        lastDelayTime := (filterAll s inp.raw).delay.value,
        lastFeedback := (filterAll s inp.raw).feedback.value,
        lastLevel := (filterAll s inp.raw).level.value } := rfl

theorem pollPreGate_fields (s : State) (inp : PollInput) :
    (pollPreGate s inp).lastChangedPot = pollArbitrated s inp.raw ∧
    (pollPreGate s inp).displayLog = s.displayLog ∧
    (pollPreGate s inp).lastDisplayedDelayTime = s.lastDisplayedDelayTime ∧
    (pollPreGate s inp).lastDisplayedFeedback = s.lastDisplayedFeedback ∧
    (pollPreGate s inp).lastDisplayedLevel = s.lastDisplayedLevel ∧
    (pollPreGate s inp).lastUpdateTime = s.lastUpdateTime :=
  ⟨rfl, rfl, rfl, rfl, rfl, rfl⟩

theorem poll_no_redraw (s : State) (inp : PollInput) (hr : pollRedraws s inp = false) :
    (updatePotentiometersAndDisplay s inp).displayLog = s.displayLog ∧
    (updatePotentiometersAndDisplay s inp).lastDisplayedDelayTime = s.lastDisplayedDelayTime ∧
    (updatePotentiometersAndDisplay s inp).lastDisplayedFeedback = s.lastDisplayedFeedback ∧
    (updatePotentiometersAndDisplay s inp).lastDisplayedLevel = s.lastDisplayedLevel ∧
    (updatePotentiometersAndDisplay s inp).lastUpdateTime = s.lastUpdateTime := by
  simp [updatePotentiometersAndDisplay, hr, diagnostics, storeFilters]

theorem poll_redraw_channel (c : Channel) (s : State) (inp : PollInput)
    (hr : pollRedraws s inp = true) (hc : pollArbitrated s inp.raw = c.pot) :
    (updatePotentiometersAndDisplay s inp).displayLog =
      s.displayLog ++ [c.body (c.result (filterAll s inp.raw)).value] ∧
    c.lastDisplayed (updatePotentiometersAndDisplay s inp) =
      (c.result (filterAll s inp.raw)).value ∧
    (∀ c2 : Channel, c2 ≠ c →
      c2.lastDisplayed (updatePotentiometersAndDisplay s inp) = c2.lastDisplayed s) ∧
    (updatePotentiometersAndDisplay s inp).lastUpdateTime = inp.currentTime := by
  obtain ⟨g1, g2, g3, g4, g5, _⟩ := pollPreGate_fields s inp
  obtain ⟨h1, h2, h3, h4, h5⟩ := redraw_channel c (pollPreGate s inp)
    (filterAll s inp.raw).delay.value (filterAll s inp.raw).feedback.value
    (filterAll s inp.raw).level.value inp.currentTime (g1.trans hc)
  rw [g2] at h1
  rw [g3] at h2
  rw [g4] at h3
  rw [g5] at h4
  rw [poll_eq, if_pos hr]
  refine ⟨h1.trans (by cases c <;> rfl), ?_, ?_, h5⟩
  · cases c <;> simp [Channel.lastDisplayed, Channel.result, h2, h3, h4]
  · intro c2 hne
    cases c <;> cases c2 <;>
      first
        | exact absurd rfl hne
        | simp [Channel.lastDisplayed, h2, h3, h4]

theorem pollSignificant_iff (c : Channel) (s : State) (inp : PollInput)
    (hc : pollArbitrated s inp.raw = c.pot) :
    pollSignificant s inp = true ↔
      c.significant (c.result (filterAll s inp.raw)).value (c.lastDisplayed s) := by
  unfold pollSignificant
  rw [hc, significantChange_channel]
  cases c <;> rfl

theorem pollRedraws_of_significant (s : State) (inp : PollInput)
    (h : pollSignificant s inp = true) : pollRedraws s inp = true :=
  shouldRedraw_of_significant _ _ _ _ _ h

theorem pollRedraws_of_elapsed (s : State) (inp : PollInput)
    (h : ulongSub inp.currentTime s.lastUpdateTime > UPDATE_INTERVAL) :
    pollRedraws s inp = true :=
  shouldRedraw_of_elapsed _ _ _ _ _ h

theorem pot_cases (p : Pot) : p = Pot.POT_NONE ∨ ∃ c : Channel, p = c.pot := by
  cases p
  · exact Or.inl rfl
  · exact Or.inr ⟨Channel.delay, rfl⟩
  · exact Or.inr ⟨Channel.feedback, rfl⟩
  · exact Or.inr ⟨Channel.level, rfl⟩

/-- Every poll that enters the redraw block calls `updateDisplayBody` once. -/
theorem poll_redraw_length (s : State) (inp : PollInput) (hr : pollRedraws s inp = true) :
    (updatePotentiometersAndDisplay s inp).displayLog.length = s.displayLog.length + 1 ∧
    (updatePotentiometersAndDisplay s inp).lastUpdateTime = inp.currentTime := by
  rcases pot_cases (pollArbitrated s inp.raw) with hn | ⟨c, hc⟩
  · obtain ⟨g1, g2, _⟩ := pollPreGate_fields s inp
    obtain ⟨h1, _, h3⟩ := redraw_none (pollPreGate s inp)
      (filterAll s inp.raw).delay.value (filterAll s inp.raw).feedback.value
      (filterAll s inp.raw).level.value inp.currentTime (g1.trans hn)
    rw [poll_eq, if_pos hr]
    refine ⟨?_, h3⟩
    have : ∀ l : List String, l = (pollPreGate s inp).displayLog ++
        [Channel.delay.body (filterAll s inp.raw).delay.value] →
        l.length = s.displayLog.length + 1 := by
      intro l hl
      rw [hl, g2]
      simp
    exact this _ h1
  · obtain ⟨h1, _, _, h4⟩ := poll_redraw_channel c s inp hr hc
    rw [h1]
    exact ⟨by simp, h4⟩

/-! ## Lemmas on the life cycle of the state -/

theorem init_lastChangedPot (s : State) (adc : Nat → Reading) :
    (initPotentiometerController s adc).lastChangedPot = Pot.POT_DELAY_TIME := rfl

theorem runPolls_active : ∀ (polls : List PollInput) (s : State),
    s.lastChangedPot ≠ Pot.POT_NONE → (runPolls s polls).lastChangedPot ≠ Pot.POT_NONE
  | [], _, h => h
  | inp :: polls, s, h => by
    have hstep : (updatePotentiometersAndDisplay s inp).lastChangedPot ≠ Pot.POT_NONE := by
      rw [poll_lastChangedPot_of_active s inp h]
      exact arbitrate_ne_none _ _ _ _ _ h
    exact runPolls_active polls (updatePotentiometersAndDisplay s inp) hstep

theorem poll_last (c : Channel) (s : State) (inp : PollInput) :
    c.last (updatePotentiometersAndDisplay s inp) = (c.result (filterAll s inp.raw)).value := by
  cases c <;> rfl

theorem filterValue_replicate (b : Bool) (v i : Int) :
    (filterValue b (List.replicate 10 v) v i).buffer = List.replicate 10 v ∧
    (filterValue b (List.replicate 10 v) v i).value = v := by
  have hlen : (List.replicate 10 v).length = 10 := by simp
  have hbuf : (filterValue b (List.replicate 10 v) v i).buffer = List.replicate 10 v := by
    cases b
    · exact filterValue_unprimed_buffer _ v i hlen
    · rw [filterValue_primed_buffer]
      apply buffer_eq_replicate _ v (by simp)
      intro x hx
      rcases List.mem_or_eq_of_mem_set hx with h | h
      · exact (List.mem_replicate.mp h).2
      · exact h
  refine ⟨hbuf, ?_⟩
  rw [filterValue_value b _ v i hlen, hbuf]
  have hsum : (List.replicate 10 v).sum = 10 * v := by
    simp only [List.sum_replicate, smul_eq_mul, nsmul_eq_mul]
    norm_num
  rw [hsum]
  exact Int.mul_tdiv_cancel_left v (by decide)

theorem filterValue_unprimed_value (buffer : List Int) (v i : Int) (hlen : buffer.length = 10) :
    (filterValue false buffer v i).value = v := by
  rw [filterValue_value false buffer v i hlen, filterValue_unprimed_buffer buffer v i hlen]
  have hsum : (List.replicate 10 v).sum = 10 * v := by
    simp only [List.sum_replicate, smul_eq_mul, nsmul_eq_mul]
    norm_num
  rw [hsum]
  exact Int.mul_tdiv_cancel_left v (by decide)

theorem init_last (c : Channel) (s : State) (adc : Nat → Reading) :
    c.last (initPotentiometerController s adc) =
      (c.result (filterAll (initPrimed s adc) (initLoop s adc).2)).value := by
  cases c <;> rfl

/-- After initialisation from a state with the priming flag unset, the buffer
of channel `c` holds its own last sample in every slot, and so does the stored
previous filtered value. -/
theorem init_primes_channel (c : Channel) (s : State) (adc : Nat → Reading)
    (hflag : s.filterInitialized = false) (hlen : (c.buffer s).length = 10)
    (h0 : 0 ≤ c.index s) (h1 : c.index s < 10) :
    c.buffer (initPotentiometerController s adc) = List.replicate 10 (c.raw (adc 9)) ∧
    c.last (initPotentiometerController s adc) = c.raw (adc 9) := by
  obtain ⟨hf9, _, hr9⟩ := initLoopUpTo_inv c s adc hflag hlen h0 h1 9
  obtain ⟨hb, _, _, ht⟩ := initLoopBody_channel c (initLoopUpTo 9 s adc) (adc 9)
  have hloop : initLoop s adc = initLoopBody (initLoopUpTo 9 s adc) (adc 9) :=
    initLoopUpTo_succ 9 s adc
  have hbuf10 : c.buffer (initLoop s adc).1 = List.replicate 10 (c.raw (adc 9)) := by
    rw [hloop, hb, channel_result_filterAll, hf9]
    exact filterValue_unprimed_buffer _ _ _ hr9.1
  have htemp : (initLoop s adc).2 = adc 9 := by rw [hloop]; exact ht
  obtain ⟨hpb, _, _⟩ := initPrimed_channel c s adc
  obtain ⟨hib, _⟩ := init_channel c s adc
  rw [hib, init_last, channel_result_filterAll, htemp, hpb, hbuf10]
  exact filterValue_replicate _ _ _

theorem filterValue_inBounds (b : Bool) (buffer : List Int) (v i : Int)
    (hlen : buffer.length = 10) (h0 : 0 ≤ i) :
    (filterValue b buffer v i).buffer.length = 10 ∧
    0 ≤ (filterValue b buffer v i).index ∧ (filterValue b buffer v i).index < 10 := by
  rw [filterValue_index b buffer v i h0]
  exact ⟨filterValue_length b buffer v i hlen, by omega, by omega⟩

theorem inBounds_of (c : Channel) (s : State) (hlen : (c.buffer s).length = 10)
    (h0 : 0 ≤ c.index s) (h1 : c.index s < 10) : c.inBounds s :=
  ⟨hlen, h0, by simpa using h1, by omega⟩

theorem poll_inBounds (c : Channel) (s : State) (inp : PollInput) (h : c.inBounds s) :
    c.inBounds (updatePotentiometersAndDisplay s inp) := by
  obtain ⟨hl, h0, h1⟩ := filterValue_inBounds s.filterInitialized (c.buffer s)
    (c.raw inp.raw) (c.index s) h.1 h.2.1
  rw [← channel_result_filterAll, ← poll_channel_buffer] at hl
  rw [← channel_result_filterAll, ← poll_channel_index] at h0 h1
  exact inBounds_of c _ hl h0 h1

theorem runPolls_inBounds (c : Channel) : ∀ (polls : List PollInput) (s : State),
    c.inBounds s → c.inBounds (runPolls s polls)
  | [], _, h => h
  | inp :: polls, s, h =>
    runPolls_inBounds c polls (updatePotentiometersAndDisplay s inp) (poll_inBounds c s inp h)

theorem initLoopUpTo_inBounds (c : Channel) (s : State) (adc : Nat → Reading)
    (h : c.inBounds s) : ∀ n : Nat, c.inBounds (initLoopUpTo n s adc).1
  | 0 => by simpa [initLoopUpTo] using h
  | n + 1 => by
    have ih := initLoopUpTo_inBounds c s adc h n
    obtain ⟨hb, hi, _, _⟩ := initLoopBody_channel c (initLoopUpTo n s adc) (adc n)
    obtain ⟨hl, h0, h1⟩ := filterValue_inBounds (initLoopUpTo n s adc).1.filterInitialized
      (c.buffer (initLoopUpTo n s adc).1) (c.raw (adc n)) (c.index (initLoopUpTo n s adc).1)
      ih.1 ih.2.1
    rw [← channel_result_filterAll, ← hb] at hl
    rw [← channel_result_filterAll, ← hi] at h0 h1
    rw [initLoopUpTo_succ]
    exact inBounds_of c _ hl h0 h1

theorem init_inBounds (c : Channel) (s : State) (adc : Nat → Reading) (h : c.inBounds s) :
    c.inBounds (initPotentiometerController s adc) := by
  have hloop := initLoopUpTo_inBounds c s adc h 10
  obtain ⟨hpb, hpi, _⟩ := initPrimed_channel c s adc
  obtain ⟨hib, hii⟩ := init_channel c s adc
  obtain ⟨hl, h0, h1⟩ := filterValue_inBounds (initPrimed s adc).filterInitialized
    (c.buffer (initPrimed s adc)) (c.raw (initLoop s adc).2) (c.index (initPrimed s adc))
    (by rw [hpb]; exact hloop.1) (by rw [hpi]; exact hloop.2.1)
  rw [← channel_result_filterAll, ← hib] at hl
  rw [← channel_result_filterAll, ← hii] at h0 h1
  exact inBounds_of c _ hl h0 h1

/-! ## Arbitration: the switch rule -/

theorem arbitrate_active (p : Pot) (c : Candidate) (d f l : Int) (hp : p ≠ Pot.POT_NONE)
    (hc : c.potToShow = Pot.POT_NONE → c.maxChange < 3) :
    arbitrate p c d f l =
      if c.potToShow ≠ p ∧ c.maxChange ≥ 3 ∧ c.maxChange ≥ 3 * currentPotChange p d f l
      then c.potToShow else p := by
  unfold arbitrate
  by_cases h1 : c.potToShow = Pot.POT_NONE
  · have := hc h1
    have h3 : ¬ (c.maxChange ≥ 3) := by omega
    simp [h1, h3]
  · by_cases h2 : c.maxChange ≥ 3
    · by_cases h3 : c.potToShow = p
      · simp [h1, h2, h3, hp]
      · by_cases h4 : c.maxChange ≥ currentPotChange p d f l * 3
        · have h5 : c.maxChange ≥ 3 * currentPotChange p d f l := by omega
          simp [h1, h2, h3, hp, h4, h5]
        · have h5 : ¬ (c.maxChange ≥ 3 * currentPotChange p d f l) := by omega
          simp [h1, h2, h3, hp, h4, h5]
    · simp [h2]

theorem selectCandidate_none (d f l : Int) :
    (selectCandidate d f l).potToShow = Pot.POT_NONE → (selectCandidate d f l).maxChange < 3 := by
  unfold selectCandidate
  dsimp only
  split_ifs <;> simp

/-- C1. A poll that starts with an active potentiometer (Delay, Feedback or
Level) ends with `lastChangedPot` equal to the candidate when the candidate
differs from the active one, `maxChange >= 3` and
`maxChange >= 3 * change[active]`, and leaves it unchanged otherwise; the changes
are the absolute differences of the filtered and the previous filtered values.
With Delay active and a Delay change of 10 nothing switches while the other
changes are at most 29, and Feedback becomes active for a Feedback change of 31
and a Level change of at most 31. -/
theorem arbitration_switch_rule (s : State) (inp : PollInput)
    (hact : s.lastChangedPot ≠ Pot.POT_NONE) :
    (delayTimeChange s inp.raw = |(filterAll s inp.raw).delay.value - s.lastDelayTime| ∧
     feedbackChange s inp.raw = |(filterAll s inp.raw).feedback.value - s.lastFeedback| ∧
     levelChange s inp.raw = |(filterAll s inp.raw).level.value - s.lastLevel|) ∧
    (updatePotentiometersAndDisplay s inp).lastChangedPot =
      (if (pollCandidate s inp.raw).potToShow ≠ s.lastChangedPot ∧
          (pollCandidate s inp.raw).maxChange ≥ 3 ∧
          (pollCandidate s inp.raw).maxChange ≥
            3 * currentPotChange s.lastChangedPot (delayTimeChange s inp.raw)
              (feedbackChange s inp.raw) (levelChange s inp.raw)
       then (pollCandidate s inp.raw).potToShow else s.lastChangedPot) ∧
    (s.lastChangedPot = Pot.POT_DELAY_TIME → delayTimeChange s inp.raw = 10 →
      feedbackChange s inp.raw ≤ 29 → levelChange s inp.raw ≤ 29 →
      (updatePotentiometersAndDisplay s inp).lastChangedPot = Pot.POT_DELAY_TIME) ∧
    (s.lastChangedPot = Pot.POT_DELAY_TIME → delayTimeChange s inp.raw = 10 →
      feedbackChange s inp.raw = 31 → levelChange s inp.raw ≤ 31 →
      (updatePotentiometersAndDisplay s inp).lastChangedPot = Pot.POT_FEEDBACK) := by
  have key : (updatePotentiometersAndDisplay s inp).lastChangedPot =
      (if (pollCandidate s inp.raw).potToShow ≠ s.lastChangedPot ∧
          (pollCandidate s inp.raw).maxChange ≥ 3 ∧
          (pollCandidate s inp.raw).maxChange ≥
            3 * currentPotChange s.lastChangedPot (delayTimeChange s inp.raw)
              (feedbackChange s inp.raw) (levelChange s inp.raw)
       then (pollCandidate s inp.raw).potToShow else s.lastChangedPot) := by
    rw [poll_lastChangedPot_of_active s inp hact]
    exact arbitrate_active _ _ _ _ _ hact (selectCandidate_none _ _ _)
  refine ⟨⟨c_abs_eq_abs _, c_abs_eq_abs _, c_abs_eq_abs _⟩, key, ?_, ?_⟩
  · intro ha hd hf hl
    rw [key, ha]
    have hsel := selectCandidate_spec (delayTimeChange s inp.raw) (feedbackChange s inp.raw)
      (levelChange s inp.raw) (c_abs_nonneg _) (c_abs_nonneg _) (c_abs_nonneg _)
    have hm : (pollCandidate s inp.raw).maxChange < 30 := by
      unfold pollCandidate; rw [hsel.1]; omega
    have : ¬ ((pollCandidate s inp.raw).maxChange ≥
        3 * currentPotChange Pot.POT_DELAY_TIME (delayTimeChange s inp.raw)
          (feedbackChange s inp.raw) (levelChange s inp.raw)) := by
      simp only [currentPotChange]; omega
    simp [this]
  · intro ha hd hf hl
    rw [key, ha]
    have hc : pollCandidate s inp.raw = { maxChange := 31, potToShow := Pot.POT_FEEDBACK } := by
      unfold pollCandidate selectCandidate
      rw [hd, hf]
      have : ¬ (levelChange s inp.raw > 31) := by omega
      simp [this]
    simp [hc, currentPotChange, hd]

/-- C1, instantiated: after initialisation on constant readings (Delay
active), a poll in which the Delay change is 10 and the Feedback change is 31
makes Feedback the active potentiometer. -/
theorem arbitration_switch_rule_witness :
    sampleState.lastChangedPot ≠ Pot.POT_NONE ∧
    delayTimeChange sampleState (pollAt 2100 1310 1000 100).raw = 10 ∧
    feedbackChange sampleState (pollAt 2100 1310 1000 100).raw = 31 ∧
    (updatePotentiometersAndDisplay sampleState (pollAt 2100 1310 1000 100)).lastChangedPot
      = Pot.POT_FEEDBACK :=
  ⟨by decide, by decide, by decide,
    (arbitration_switch_rule sampleState (pollAt 2100 1310 1000 100) (by decide)).2.2.2
      (by decide) (by decide) (by decide) (by decide)⟩

/-! ## The filter in steady state -/

/-- C2. With the priming flag set, `filterValue` on a buffer of ten integers
and an index `i` in `[0, 10)` writes the new raw value into slot `i`, leaves
every other slot unchanged, sets the index to `(i + 1) mod 10`, and returns the
sum of the ten slots after the write divided by ten with truncation toward
zero. -/
theorem filterValue_steady_state (buffer : List Int) (i newRaw : Int)
    (hlen : buffer.length = FILTER_SAMPLES) (h0 : 0 ≤ i) (h1 : i < FILTER_SAMPLES) :
    (filterValue true buffer newRaw i).buffer.length = FILTER_SAMPLES ∧
    (filterValue true buffer newRaw i).buffer[i.toNat]? = some newRaw ∧
    (∀ j : Nat, j ≠ i.toNat → (filterValue true buffer newRaw i).buffer[j]? = buffer[j]?) ∧
    (filterValue true buffer newRaw i).index = (i + 1) % 10 ∧
    (filterValue true buffer newRaw i).value =
      Int.tdiv (filterValue true buffer newRaw i).buffer.sum 10 := by
  have hi : i.toNat < buffer.length := by
    have : (i : Int) < 10 := by simpa using h1
    omega
  refine ⟨filterValue_length true buffer newRaw i hlen, ?_, ?_,
    filterValue_index true buffer newRaw i h0, filterValue_value true buffer newRaw i hlen⟩
  · rw [filterValue_primed_buffer, List.getElem?_set]
    simp [hi]
  · intro j hj
    rw [filterValue_primed_buffer, List.getElem?_set]
    simp [Ne.symm hj]

/-- C2, instantiated: writing 50 at index 9 of the buffer `0, 10, .., 90`
wraps the index to 0 and returns `(0 + 10 + .. + 80 + 50) / 10 = 41`. -/
theorem filterValue_steady_state_witness :
    filterValue true [0, 10, 20, 30, 40, 50, 60, 70, 80, 90] 50 9 =
      { buffer := [0, 10, 20, 30, 40, 50, 60, 70, 80, 50], index := 0, value := 41 } ∧
    (filterValue true [0, 10, 20, 30, 40, 50, 60, 70, 80, 90] 50 9).value =
      Int.tdiv (filterValue true [0, 10, 20, 30, 40, 50, 60, 70, 80, 90] 50 9).buffer.sum 10 :=
  ⟨by decide,
    (filterValue_steady_state [0, 10, 20, 30, 40, 50, 60, 70, 80, 90] 9 50
      (by decide) (by decide) (by decide)).2.2.2.2⟩

/-! ## Unit conversion -/

/-- C5. For every integer `raw`, `adcToDelayTime raw = raw * 500 / 4095` and
`adcToPercentage raw = raw * 100 / 4095` with truncating division; the
boundary values 0 and 4095 map to 0 and to 500, respectively 100. -/
theorem unit_conversion_law :
    (∀ raw : Int, adcToDelayTime raw = Int.tdiv (raw * 500) 4095 ∧
      adcToPercentage raw = Int.tdiv (raw * 100) 4095) ∧
    adcToDelayTime 0 = 0 ∧ adcToDelayTime 4095 = 500 ∧
    adcToPercentage 0 = 0 ∧ adcToPercentage 4095 = 100 := by
  refine ⟨fun raw => ⟨?_, ?_⟩, by decide, by decide, by decide, by decide⟩
  · simp [adcToDelayTime, map]
  · simp [adcToPercentage, map]

/-! ## Candidate selection -/

/-- C6. For non-negative changes, `maxChange` is the maximum of the three
changes; `potToShow` is `POT_NONE` exactly when all three changes are 0, and
otherwise it is the first potentiometer in the order Delay, Feedback, Level
whose change equals that maximum. -/
theorem candidate_selection (d f l : Int) (hd : 0 ≤ d) (hf : 0 ≤ f) (hl : 0 ≤ l) :
    (selectCandidate d f l).maxChange = max d (max f l) ∧
    ((selectCandidate d f l).potToShow = Pot.POT_NONE ↔ d = 0 ∧ f = 0 ∧ l = 0) ∧
    (¬ (d = 0 ∧ f = 0 ∧ l = 0) → (selectCandidate d f l).potToShow = firstMaxChannel d f l) := by
  refine ⟨(selectCandidate_spec d f l hd hf hl).1, ?_, ?_⟩
  · unfold selectCandidate
    dsimp only
    split_ifs <;> dsimp only at * <;> simp <;> omega
  · intro hnz
    unfold selectCandidate firstMaxChannel
    dsimp only
    split_ifs <;> dsimp only at * <;> first | rfl | (exfalso; omega)

/-- C6, instantiated: a tie of Feedback and Level at the maximum goes to
Feedback, and all-zero changes give no candidate. -/
theorem candidate_selection_witness :
    selectCandidate 4 9 9 = { maxChange := 9, potToShow := Pot.POT_FEEDBACK } ∧
    selectCandidate 0 0 0 = { maxChange := 0, potToShow := Pot.POT_NONE } ∧
    (selectCandidate 4 9 9).maxChange = max 4 (max 9 9) :=
  ⟨by decide, by decide,
    (candidate_selection 4 9 9 (by decide) (by decide) (by decide)).1⟩

/-! ## Bootstrap and hysteresis -/

/-- C7. A poll that starts with no active potentiometer (`POT_NONE`) and has
`maxChange >= 3` ends with `lastChangedPot` equal to the candidate, which is a
real potentiometer whose change is the largest of the three; no comparison with
three times another change is made. -/
theorem bootstrap_selects_candidate (s : State) (inp : PollInput)
    (hnone : s.lastChangedPot = Pot.POT_NONE)
    (h3 : (pollCandidate s inp.raw).maxChange ≥ 3) :
    (updatePotentiometersAndDisplay s inp).lastChangedPot = (pollCandidate s inp.raw).potToShow ∧
    (pollCandidate s inp.raw).potToShow ≠ Pot.POT_NONE ∧
    currentPotChange (pollCandidate s inp.raw).potToShow (delayTimeChange s inp.raw)
        (feedbackChange s inp.raw) (levelChange s inp.raw) =
      max (delayTimeChange s inp.raw) (max (feedbackChange s inp.raw) (levelChange s inp.raw)) := by
  have hsel := selectCandidate_spec (delayTimeChange s inp.raw) (feedbackChange s inp.raw)
    (levelChange s inp.raw) (c_abs_nonneg _) (c_abs_nonneg _) (c_abs_nonneg _)
  have hne : (pollCandidate s inp.raw).potToShow ≠ Pot.POT_NONE := by
    intro h
    have := selectCandidate_none _ _ _ h
    unfold pollCandidate at h3
    omega
  have harb : pollArbitrated s inp.raw = (pollCandidate s inp.raw).potToShow := by
    unfold pollArbitrated arbitrate
    simp [hnone, hne, h3]
  refine ⟨?_, hne, ?_⟩
  · rw [poll_lastChangedPot, harb]
    simp [hne]
  · unfold pollCandidate
    rw [hsel.2, hsel.1]

/-- C7, instantiated: polled at power-up with changes 101, 301 and 8, the
controller makes Feedback active although 301 is less than three times 101. -/
theorem bootstrap_selects_candidate_witness :
    bootState.lastChangedPot = Pot.POT_NONE ∧
    pollCandidate bootState (pollAt 100 300 7 20).raw =
      { maxChange := 301, potToShow := Pot.POT_FEEDBACK } ∧
    delayTimeChange bootState (pollAt 100 300 7 20).raw = 101 ∧
    (updatePotentiometersAndDisplay bootState (pollAt 100 300 7 20)).lastChangedPot
      = Pot.POT_FEEDBACK :=
  ⟨by decide, by decide, by decide,
    (bootstrap_selects_candidate bootState (pollAt 100 300 7 20) (by decide) (by decide)).1.trans
      (by decide)⟩

/-- C8, refuted as stated: after initialisation (Delay active) a poll with a
Delay change of 10 and a Feedback change of exactly 30 switches to Feedback,
although 30 does not exceed three times 10. -/
theorem strict_hysteresis_counterexample :
    ¬ ∀ (s : State) (inp : PollInput), s.lastChangedPot ≠ Pot.POT_NONE →
      (updatePotentiometersAndDisplay s inp).lastChangedPot ≠ s.lastChangedPot →
      currentPotChange (updatePotentiometersAndDisplay s inp).lastChangedPot
          (delayTimeChange s inp.raw) (feedbackChange s inp.raw) (levelChange s inp.raw) >
        3 * currentPotChange s.lastChangedPot
          (delayTimeChange s inp.raw) (feedbackChange s inp.raw) (levelChange s inp.raw) := by
  intro h
  have h1 := h sampleState (pollAt 2100 1300 1000 100) (by decide) (by decide)
  revert h1
  decide

/-- C8, amended. A poll that starts with an active potentiometer (Delay,
Feedback or Level) switches to a different one only if the change of the new
one is at least (greater than or equal to, not necessarily more than) three
times the change of the potentiometer that was active. -/
theorem hysteresis_at_least_triple (s : State) (inp : PollInput)
    (hact : s.lastChangedPot ≠ Pot.POT_NONE)
    (hsw : (updatePotentiometersAndDisplay s inp).lastChangedPot ≠ s.lastChangedPot) :
    currentPotChange (updatePotentiometersAndDisplay s inp).lastChangedPot
        (delayTimeChange s inp.raw) (feedbackChange s inp.raw) (levelChange s inp.raw) ≥
      3 * currentPotChange s.lastChangedPot
        (delayTimeChange s inp.raw) (feedbackChange s inp.raw) (levelChange s inp.raw) := by
  have hsel := selectCandidate_spec (delayTimeChange s inp.raw) (feedbackChange s inp.raw)
    (levelChange s inp.raw) (c_abs_nonneg _) (c_abs_nonneg _) (c_abs_nonneg _)
  have key := poll_lastChangedPot_of_active s inp hact
  have harb := arbitrate_active s.lastChangedPot (pollCandidate s inp.raw)
    (delayTimeChange s inp.raw) (feedbackChange s inp.raw) (levelChange s inp.raw) hact
    (selectCandidate_none _ _ _)
  rw [pollArbitrated, harb] at key
  rw [key] at hsw ⊢
  split_ifs at hsw ⊢ with hc
  · unfold pollCandidate at hc ⊢
    rw [hsel.2]
    exact hc.2.2
  · exact absurd rfl hsw

/-- C8 amended, instantiated: the switch from Delay to Feedback at a Feedback
change of exactly 30 against a Delay change of 10. -/
theorem hysteresis_at_least_triple_witness :
    sampleState.lastChangedPot = Pot.POT_DELAY_TIME ∧
    (updatePotentiometersAndDisplay sampleState (pollAt 2100 1300 1000 100)).lastChangedPot
      = Pot.POT_FEEDBACK ∧
    feedbackChange sampleState (pollAt 2100 1300 1000 100).raw = 30 ∧
    delayTimeChange sampleState (pollAt 2100 1300 1000 100).raw = 10 ∧
    currentPotChange
        (updatePotentiometersAndDisplay sampleState (pollAt 2100 1300 1000 100)).lastChangedPot
        (delayTimeChange sampleState (pollAt 2100 1300 1000 100).raw)
        (feedbackChange sampleState (pollAt 2100 1300 1000 100).raw)
        (levelChange sampleState (pollAt 2100 1300 1000 100).raw) ≥
      3 * currentPotChange sampleState.lastChangedPot
        (delayTimeChange sampleState (pollAt 2100 1300 1000 100).raw)
        (feedbackChange sampleState (pollAt 2100 1300 1000 100).raw)
        (levelChange sampleState (pollAt 2100 1300 1000 100).raw) :=
  ⟨by decide, by decide, by decide, by decide,
    hysteresis_at_least_triple sampleState (pollAt 2100 1300 1000 100)
      (by decide) (by decide)⟩

/-! ## Filter convergence and boundedness -/

/-- C3. From any buffer of ten integers and any index in `[0, 10)`, after `n`
consecutive calls of `filterValue` with the same raw value `v` and the priming
flag set, `n >= 10`, the value returned by the last call is exactly `v`. -/
theorem filter_convergence (buffer : List Int) (index v x : Int) (n : Nat)
    (hlen : buffer.length = FILTER_SAMPLES) (h0 : 0 ≤ index) (h1 : index < FILTER_SAMPLES)
    (hn : FILTER_SAMPLES ≤ n) :
    (filterCalls true { buffer := buffer, index := index, value := x }
      (List.replicate n v)).value = v := by
  obtain ⟨k, rfl⟩ : ∃ k, n = k + 1 := ⟨n - 1, by omega⟩
  have hstart : RingInv 0 [] buffer index := ringInv_start buffer index hlen h0 (by simpa using h1)
  have hk := filterCalls_primed_inv (List.replicate k v) 0 []
    { buffer := buffer, index := index, value := x } hstart
  have hlast := ringInv_primed _ _ _ _ v hk
  rw [List.replicate_succ', filterCalls_snoc, filterValue_value _ _ _ _ hk.1]
  have hall : ∀ y ∈ (filterValue true
      (filterCalls true { buffer := buffer, index := index, value := x }
        (List.replicate k v)).buffer v
      (filterCalls true { buffer := buffer, index := index, value := x }
        (List.replicate k v)).index).buffer, y = v := by
    intro y hy
    have hn10 : 10 ≤ k + 1 := hn
    have hmem := ringInv_mem _ _ _ _ hlast (by simp; omega) y hy
    have hmem2 := List.mem_of_mem_take hmem
    simp only [List.reverse_replicate, List.append_nil, List.mem_cons, List.mem_replicate]
      at hmem2
    rcases hmem2 with h | h
    · exact h
    · exact h.2
  rw [buffer_eq_replicate _ v hlast.1 hall]
  have hsum : (List.replicate 10 v).sum = 10 * v := by
    simp only [List.sum_replicate, smul_eq_mul, nsmul_eq_mul]
    norm_num
  rw [hsum]
  exact Int.mul_tdiv_cancel_left v (by decide)

/-- C3, instantiated: ten calls with the value 7 on the buffer `0, 10, .., 90`,
starting at index 4, end with the value 7 returned. -/
theorem filter_convergence_witness :
    (filterCalls true
      { buffer := [0, 10, 20, 30, 40, 50, 60, 70, 80, 90], index := 4, value := 0 }
      (List.replicate 10 7)).value = 7 ∧
    (filterCalls true
      { buffer := [0, 10, 20, 30, 40, 50, 60, 70, 80, 90], index := 4, value := 0 }
      (List.replicate 9 7)).value = 9 :=
  ⟨filter_convergence [0, 10, 20, 30, 40, 50, 60, 70, 80, 90] 4 7 0 10
      (by decide) (by decide) (by decide) (by decide),
    by decide⟩

/-- C4. For each channel, from a state in which the priming flag is unset (as
at power-up), through `initPotentiometerController` and any number of polls,
every value returned by that channel's `filterValue` call lies between the
least and the greatest of the last ten raw inputs passed to that channel's
filter so far (all of them when fewer than ten): the calls of the priming loop,
the call after the loop, and the call of every poll. -/
theorem filter_boundedness (c : Channel) (s : State) (adc : Nat → Reading)
    (hflag : s.filterInitialized = false) (hlen : (c.buffer s).length = FILTER_SAMPLES)
    (h0 : 0 ≤ c.index s) (h1 : c.index s < FILTER_SAMPLES) :
    (∀ n : Nat, n < FILTER_SAMPLES →
      WithinRange (c.result (filterAll (initLoopUpTo n s adc).1 (adc n))).value
        (lastInputs ((channelInputs c adc []).take (n + 1)))) ∧
    WithinRange (c.result (filterAll (initPrimed s adc) (initLoop s adc).2)).value
      (lastInputs (channelInputs c adc [])) ∧
    (∀ (pre : List PollInput) (inp : PollInput),
      WithinRange
        (c.result (filterAll (runPolls (initPotentiometerController s adc) pre) inp.raw)).value
        (lastInputs (channelInputs c adc (pre ++ [inp])))) := by
  have h1' : c.index s < 10 := by simpa using h1
  obtain ⟨ht9, hr10, hr11⟩ := init_ringInv c s adc hflag hlen h0 h1'
  refine ⟨?_, ?_, ?_⟩
  · intro n hn
    obtain ⟨hf, _, hr⟩ := initLoopUpTo_inv c s adc hflag hlen h0 h1' n
    rw [lastInputs_loop c adc n hn, channel_result_filterAll, hf]
    exact filterValue_unprimed_withinRange _ _ _ _ hr.1 hr.2.1
  · rw [lastInputs_polls, channel_result_filterAll, ht9]
    exact filterValue_withinRange _ _ _ _ _ hr10
  · intro pre inp
    have hpre := runPolls_ringInv c pre (initPotentiometerController s adc) _ hr11
    have hw := filterValue_withinRange _ _ _ (c.raw inp.raw)
      (runPolls (initPotentiometerController s adc) pre).filterInitialized hpre
    rw [lastInputs_polls, channel_result_filterAll]
    simpa using hw

/-- C4, instantiated: after power-up, initialisation on constant readings and
one poll, the Feedback filter returns 1030 in a poll with the raw value 1300,
which lies between 1000 and 1300, two of its last ten inputs. -/
theorem filter_boundedness_witness :
    (Channel.feedback.result (filterAll (runPolls (initPotentiometerController bootState sampleAdc)
        [pollAt 2000 1000 1000 100]) (pollAt 2100 1300 1000 110).raw)).value = 1030 ∧
    lastInputs (channelInputs Channel.feedback sampleAdc
        ([pollAt 2000 1000 1000 100] ++ [pollAt 2100 1300 1000 110])) =
      [1300, 1000, 1000, 1000, 1000, 1000, 1000, 1000, 1000, 1000] ∧
    WithinRange
      (Channel.feedback.result (filterAll (runPolls (initPotentiometerController bootState sampleAdc)
        [pollAt 2000 1000 1000 100]) (pollAt 2100 1300 1000 110).raw)).value
      (lastInputs (channelInputs Channel.feedback sampleAdc
        ([pollAt 2000 1000 1000 100] ++ [pollAt 2100 1300 1000 110]))) :=
  ⟨by decide, by decide,
    (filter_boundedness Channel.feedback bootState sampleAdc (by decide) (by decide)
      (by decide) (by decide)).2.2 [pollAt 2000 1000 1000 100] (pollAt 2100 1300 1000 110)⟩

/-! ## The display gate -/

/-- Whenever arbitration changes the active potentiometer, the new active one
is the candidate, so the term `potToShow != POT_NONE && potToShow != lastChangedPot`
of `shouldUpdate`, which is evaluated after arbitration, is false. -/
theorem candidate_term_false_on_switch (s : State) (inp : PollInput)
    (hsw : pollArbitrated s inp.raw ≠ s.lastChangedPot) :
    (decide ((pollCandidate s inp.raw).potToShow ≠ Pot.POT_NONE) &&
      decide ((pollCandidate s inp.raw).potToShow ≠ pollArbitrated s inp.raw)) = false := by
  have hc : (pollCandidate s inp.raw).potToShow = pollArbitrated s inp.raw := by
    unfold pollArbitrated arbitrate at hsw ⊢
    split_ifs at hsw ⊢ <;> first | rfl | exact absurd rfl hsw
  simp [hc]

/-- C9, evaluated on the code: after initialisation and the two polls of
`switchTrace` Delay is active and `"Time\n247ms"` is displayed; in the next
poll, 10 ms later, Feedback changes by 30 and Delay by 0, the active
potentiometer becomes Feedback, and no redraw is issued: `updateDisplayBody` is
not called and the display keeps showing the Delay text. -/
theorem switch_without_redraw :
    (runPolls sampleState switchTrace).lastChangedPot = Pot.POT_DELAY_TIME ∧
    (runPolls sampleState switchTrace).displayLog =
      ["Time: 244ms", "Feedback\n25%", "Time\n247ms"] ∧
    delayTimeChange (runPolls sampleState switchTrace) (pollAt 2000 1300 1000 120).raw = 0 ∧
    feedbackChange (runPolls sampleState switchTrace) (pollAt 2000 1300 1000 120).raw = 30 ∧
    pollArbitrated (runPolls sampleState switchTrace) (pollAt 2000 1300 1000 120).raw
      = Pot.POT_FEEDBACK ∧
    (updatePotentiometersAndDisplay (runPolls sampleState switchTrace)
      (pollAt 2000 1300 1000 120)).lastChangedPot = Pot.POT_FEEDBACK ∧
    pollRedraws (runPolls sampleState switchTrace) (pollAt 2000 1300 1000 120) = false ∧
    (updatePotentiometersAndDisplay (runPolls sampleState switchTrace)
      (pollAt 2000 1300 1000 120)).displayLog = (runPolls sampleState switchTrace).displayLog := by
  decide

/-- C10, evaluated on the code: after initialisation and the poll of
`settleTrace` Delay is active and displayed.  In the next poll, 10 ms after the
redraw, the Delay filtered value 2000 equals its previous and its last
displayed value, and the Feedback filtered value moves by 1; Feedback becomes
the candidate, is refused by arbitration, and a redraw is issued all the same:
`updateDisplayBody` is called with the unchanged text and the redraw timer is
reset.  With unchanged Feedback the same poll issues no redraw. -/
theorem rejected_candidate_redraws :
    (runPolls sampleState settleTrace).lastChangedPot = Pot.POT_DELAY_TIME ∧
    pollArbitrated (runPolls sampleState settleTrace) (pollAt 2000 1010 1000 110).raw
      = Pot.POT_DELAY_TIME ∧
    (filterAll (runPolls sampleState settleTrace) (pollAt 2000 1010 1000 110).raw).delay.value
      = 2000 ∧
    (runPolls sampleState settleTrace).lastDelayTime = 2000 ∧
    (runPolls sampleState settleTrace).lastDisplayedDelayTime = 2000 ∧
    ulongSub (pollAt 2000 1010 1000 110).currentTime
      (runPolls sampleState settleTrace).lastUpdateTime = 10 ∧
    pollCandidate (runPolls sampleState settleTrace) (pollAt 2000 1010 1000 110).raw
      = { maxChange := 1, potToShow := Pot.POT_FEEDBACK } ∧
    pollRedraws (runPolls sampleState settleTrace) (pollAt 2000 1010 1000 110) = true ∧
    (updatePotentiometersAndDisplay (runPolls sampleState settleTrace)
      (pollAt 2000 1010 1000 110)).displayLog
      = (runPolls sampleState settleTrace).displayLog ++ ["Time\n244ms"] ∧
    (runPolls sampleState settleTrace).lastUpdateTime = 100 ∧
    (updatePotentiometersAndDisplay (runPolls sampleState settleTrace)
      (pollAt 2000 1010 1000 110)).lastUpdateTime = 110 ∧
    pollRedraws (runPolls sampleState settleTrace) (pollAt 2000 1000 1000 110) = false := by
  decide

/-! ## Polls whose outcome does not depend on the time stamps -/

theorem pollSignificant_erase (s : State) (inp : PollInput) :
    pollSignificant (eraseTime s) (zeroTime inp) = pollSignificant s inp := rfl

theorem redraw_erase (a : State) (d f l : Int) (t : Nat) :
    eraseTime (redraw a d f l t) = redraw (eraseTime a) d f l 0 := by
  cases h : a.lastChangedPot <;> simp [redraw, eraseTime, h]

theorem ulongSub_zero : ulongSub 0 0 = 0 := by decide

theorem diagnostics_erase (a : State) (x y : Nat) :
    eraseTime (diagnostics a x y) = diagnostics (eraseTime a) 0 0 := by
  simp [diagnostics, eraseTime, ulongSub_zero]

theorem pollPreGate_erase (s : State) (inp : PollInput) :
    eraseTime (pollPreGate s inp) = pollPreGate (eraseTime s) (zeroTime inp) := by
  unfold pollPreGate
  rw [diagnostics_erase]
  rfl

theorem poll_erase (s : State) (inp : PollInput) (h : pollSignificant s inp = true) :
    eraseTime (updatePotentiometersAndDisplay s inp) =
      updatePotentiometersAndDisplay (eraseTime s) (zeroTime inp) := by
  have hr := pollRedraws_of_significant s inp h
  have hr2 := pollRedraws_of_significant (eraseTime s) (zeroTime inp)
    ((pollSignificant_erase s inp).trans h)
  calc eraseTime (updatePotentiometersAndDisplay s inp)
      = { eraseTime (redraw (pollPreGate s inp)
            (filterAll s inp.raw).delay.value (filterAll s inp.raw).feedback.value
            (filterAll s inp.raw).level.value inp.currentTime) with
          lastDelayTime := (filterAll s inp.raw).delay.value,
          lastFeedback := (filterAll s inp.raw).feedback.value,
          lastLevel := (filterAll s inp.raw).level.value } := by
        rw [poll_eq, if_pos hr]
        rfl
    _ = { redraw (pollPreGate (eraseTime s) (zeroTime inp))
            (filterAll s inp.raw).delay.value (filterAll s inp.raw).feedback.value
            (filterAll s inp.raw).level.value 0 with
          lastDelayTime := (filterAll s inp.raw).delay.value,
          lastFeedback := (filterAll s inp.raw).feedback.value,
          lastLevel := (filterAll s inp.raw).level.value } := by
        rw [redraw_erase, pollPreGate_erase]
    _ = updatePotentiometersAndDisplay (eraseTime s) (zeroTime inp) := by
        rw [poll_eq, if_pos hr2]
        rfl

theorem runPolls_erase : ∀ (polls : List PollInput) (s : State),
    allSignificant (eraseTime s) (polls.map zeroTime) = true →
    eraseTime (runPolls s polls) = runPolls (eraseTime s) (polls.map zeroTime)
  | [], _, _ => rfl
  | inp :: polls, s, h => by
    simp only [List.map_cons, allSignificant, Bool.and_eq_true] at h
    have hstep := poll_erase s inp ((pollSignificant_erase s inp).symm.trans h.1)
    have ih := runPolls_erase polls (updatePotentiometersAndDisplay s inp)
      (by rw [hstep]; exact h.2)
    rw [hstep] at ih
    exact ih

theorem map_zeroTime_const (r : Reading) : ∀ (polls : List PollInput),
    (∀ p ∈ polls, p.raw = r) →
    polls.map zeroTime =
      List.replicate polls.length { raw := r, debugTime := 0, debugStamp := 0, currentTime := 0 }
  | [], _ => rfl
  | p :: polls, h => by
    have hp : zeroTime p = { raw := r, debugTime := 0, debugStamp := 0, currentTime := 0 } := by
      simp [zeroTime, h p (List.mem_cons_self p polls)]
    have ih := map_zeroTime_const r polls (fun q hq => h q (List.mem_cons_of_mem p hq))
    simp [List.replicate_succ, hp, ih]

/-! ## The display gate: redraw triggers and effect -/

/-- C11. In every poll, with the active channel `c` taken after arbitration,
the flag `valueChangedSignificantly` is set exactly when the last displayed
filtered value of `c` is unset (`-1`) or the converted filtered value of `c`
differs from the converted last displayed value of `c` by at least 5 (Delay,
ms) or 2 (Feedback, Level, percent); the readings of the other two channels do
not enter the test.  When the test holds a redraw is issued:
`updateDisplayBody` is called with the body of `c`. -/
theorem significant_change_redraw (c : Channel) (s : State) (inp : PollInput)
    (hc : pollArbitrated s inp.raw = c.pot) :
    (pollSignificant s inp = true ↔
      ((c.lastDisplayed s = -1) ∨
        c.threshold ≤
          |c.convert (c.result (filterAll s inp.raw)).value - c.convert (c.lastDisplayed s)|)) ∧
    (((c.lastDisplayed s = -1) ∨
        c.threshold ≤
          |c.convert (c.result (filterAll s inp.raw)).value - c.convert (c.lastDisplayed s)|) →
      pollRedraws s inp = true ∧
      (updatePotentiometersAndDisplay s inp).displayLog =
        s.displayLog ++ [c.body (c.result (filterAll s inp.raw)).value]) ∧
    Channel.delay.threshold = 5 ∧ Channel.feedback.threshold = 2 ∧
    Channel.level.threshold = 2 ∧
    (∀ x : Int, Channel.delay.convert x = adcToDelayTime x ∧
      Channel.feedback.convert x = adcToPercentage x ∧
      Channel.level.convert x = adcToPercentage x) := by
  have hiff := pollSignificant_iff c s inp hc
  refine ⟨hiff, ?_, rfl, rfl, rfl, fun x => ⟨rfl, rfl, rfl⟩⟩
  intro hsig
  have hr := pollRedraws_of_significant s inp (hiff.mpr hsig)
  exact ⟨hr, (poll_redraw_channel c s inp hr hc).1⟩

/-- C11, instantiated: after initialisation the last displayed Delay value is
unset, so the first poll redraws the Delay value. -/
theorem significant_change_redraw_witness :
    pollArbitrated sampleState (pollAt 2000 1000 1000 10).raw = Channel.delay.pot ∧
    Channel.delay.lastDisplayed sampleState = -1 ∧
    pollRedraws sampleState (pollAt 2000 1000 1000 10) = true ∧
    (updatePotentiometersAndDisplay sampleState (pollAt 2000 1000 1000 10)).displayLog =
      ["Time: 244ms", "Time\n244ms"] :=
  ⟨by decide, by decide,
    ((significant_change_redraw Channel.delay sampleState (pollAt 2000 1000 1000 10)
      (by decide)).2.1 (Or.inl (by decide))).1,
    by decide⟩

/-- C12, refuted as stated: after initialisation and one poll at 100 ms that
redraws, a poll with unchanged readings whose `millis()` is 150, exactly 50 ms
after the redraw, issues no redraw. -/
theorem interval_redraw_counterexample :
    ¬ ∀ (s : State) (inp : PollInput),
      ulongSub inp.currentTime s.lastUpdateTime ≥ UPDATE_INTERVAL →
      pollRedraws s inp = true := by
  intro h
  have h1 := h (runPolls sampleState settleTrace) (pollAt 2000 1000 1000 150) (by decide)
  revert h1
  decide

/-- C12, amended. In every poll in which more than `UPDATE_INTERVAL` = 50 ms
have elapsed since the last redraw (`currentTime - lastUpdateTime > 50` in
`unsigned long` arithmetic), a redraw is issued, whatever the readings:
`updateDisplayBody` is called once and the redraw timer is set to the current
time. -/
theorem interval_redraw (s : State) (inp : PollInput)
    (h : ulongSub inp.currentTime s.lastUpdateTime > UPDATE_INTERVAL) :
    pollRedraws s inp = true ∧
    (updatePotentiometersAndDisplay s inp).displayLog.length = s.displayLog.length + 1 ∧
    (updatePotentiometersAndDisplay s inp).lastUpdateTime = inp.currentTime :=
  ⟨pollRedraws_of_elapsed s inp h, poll_redraw_length s inp (pollRedraws_of_elapsed s inp h)⟩

/-- C12 amended, instantiated: 51 ms after the redraw at 100 ms a poll with
unchanged readings redraws. -/
theorem interval_redraw_witness :
    ulongSub (pollAt 2000 1000 1000 151).currentTime
      (runPolls sampleState settleTrace).lastUpdateTime = 51 ∧
    delayTimeChange (runPolls sampleState settleTrace) (pollAt 2000 1000 1000 151).raw = 0 ∧
    feedbackChange (runPolls sampleState settleTrace) (pollAt 2000 1000 1000 151).raw = 0 ∧
    levelChange (runPolls sampleState settleTrace) (pollAt 2000 1000 1000 151).raw = 0 ∧
    pollRedraws (runPolls sampleState settleTrace) (pollAt 2000 1000 1000 151) = true :=
  ⟨by decide, by decide, by decide, by decide,
    (interval_redraw (runPolls sampleState settleTrace) (pollAt 2000 1000 1000 151)
      (by decide)).1⟩

/-- C13. A poll that issues a redraw with active channel `c` (after
arbitration) sends the body `"Time\n<v>ms"`, `"Feedback\n<v>%"` or
`"Level\n<v>%"` of `c`, where `v` is the converted current filtered value of
`c`; it sets the last displayed value of `c` to that filtered value, keeps the
last displayed values of the other two channels, and sets the redraw timer to
the current time.  A poll that issues no redraw sends nothing and keeps the
three last displayed values and the redraw timer. -/
theorem redraw_effect_and_frame (s : State) (inp : PollInput) :
    (∀ c : Channel, pollRedraws s inp = true → pollArbitrated s inp.raw = c.pot →
      (updatePotentiometersAndDisplay s inp).displayLog =
        s.displayLog ++ [c.body (c.result (filterAll s inp.raw)).value] ∧
      c.lastDisplayed (updatePotentiometersAndDisplay s inp) =
        (c.result (filterAll s inp.raw)).value ∧
      (∀ c2 : Channel, c2 ≠ c →
        c2.lastDisplayed (updatePotentiometersAndDisplay s inp) = c2.lastDisplayed s) ∧
      (updatePotentiometersAndDisplay s inp).lastUpdateTime = inp.currentTime) ∧
    (pollRedraws s inp = false →
      (updatePotentiometersAndDisplay s inp).displayLog = s.displayLog ∧
      (∀ c : Channel,
        c.lastDisplayed (updatePotentiometersAndDisplay s inp) = c.lastDisplayed s) ∧
      (updatePotentiometersAndDisplay s inp).lastUpdateTime = s.lastUpdateTime) ∧
    (∀ x : Int,
      Channel.delay.body x = "Time\n" ++ fmtInt (adcToDelayTime x) ++ "ms" ∧
      Channel.feedback.body x = "Feedback\n" ++ fmtInt (adcToPercentage x) ++ "%" ∧
      Channel.level.body x = "Level\n" ++ fmtInt (adcToPercentage x) ++ "%") := by
  refine ⟨fun c hr hc => poll_redraw_channel c s inp hr hc, ?_, fun x => ⟨rfl, rfl, rfl⟩⟩
  intro hr
  obtain ⟨h1, h2, h3, h4, h5⟩ := poll_no_redraw s inp hr
  refine ⟨h1, ?_, h5⟩
  intro c
  cases c
  · exact h2
  · exact h3
  · exact h4

/-- C13, instantiated: the poll that makes Feedback active after initialisation
sends `"Feedback\n25%"`, records 1030 as the last displayed Feedback value,
leaves the Delay one unset and stamps the timer; a poll with unchanged readings
10 ms after a redraw changes nothing of these. -/
theorem redraw_effect_and_frame_witness :
    (updatePotentiometersAndDisplay sampleState (pollAt 2000 1300 1000 100)).displayLog =
      sampleState.displayLog ++ ["Feedback\n25%"] ∧
    (updatePotentiometersAndDisplay sampleState (pollAt 2000 1300 1000 100)).lastDisplayedFeedback
      = 1030 ∧
    Channel.delay.lastDisplayed
      (updatePotentiometersAndDisplay sampleState (pollAt 2000 1300 1000 100)) = -1 ∧
    (updatePotentiometersAndDisplay sampleState (pollAt 2000 1300 1000 100)).lastUpdateTime
      = 100 ∧
    (updatePotentiometersAndDisplay (runPolls sampleState settleTrace)
      (pollAt 2000 1000 1000 110)).lastUpdateTime = 100 :=
  ⟨((redraw_effect_and_frame sampleState (pollAt 2000 1300 1000 100)).1 Channel.feedback
      (by decide) (by decide)).1.trans (by decide),
    by decide, by decide, by decide,
    ((redraw_effect_and_frame (runPolls sampleState settleTrace)
      (pollAt 2000 1000 1000 110)).2.1 (by decide)).2.2.trans (by decide)⟩

/-! ## Active channel: threshold and life cycle -/

/-- C14, refuted as stated: polled at power-up (`POT_NONE`) with readings 0
the three changes are 1, below the threshold 3, and the poll ends with
`POT_DELAY_TIME`. -/
theorem below_threshold_counterexample :
    ¬ ∀ (s : State) (inp : PollInput), (pollCandidate s inp.raw).maxChange < MIN_CHANGE_THRESHOLD →
      (updatePotentiometersAndDisplay s inp).lastChangedPot = s.lastChangedPot := by
  intro h
  have h1 := h bootState (pollAt 0 0 0 5) (by decide)
  revert h1
  decide

/-- C14, amended. In a poll whose `maxChange` is below `MIN_CHANGE_THRESHOLD`
(3), arbitration leaves `lastChangedPot` unchanged; if a potentiometer (Delay,
Feedback or Level) was active before the poll it is the active one after the
poll, and if none was (`POT_NONE`) the redraw of that poll sets
`lastChangedPot` to `POT_DELAY_TIME`, the default display. -/
theorem below_threshold_keeps_active (s : State) (inp : PollInput)
    (h : (pollCandidate s inp.raw).maxChange < MIN_CHANGE_THRESHOLD) :
    pollArbitrated s inp.raw = s.lastChangedPot ∧
    (s.lastChangedPot ≠ Pot.POT_NONE →
      (updatePotentiometersAndDisplay s inp).lastChangedPot = s.lastChangedPot) ∧
    (s.lastChangedPot = Pot.POT_NONE →
      (updatePotentiometersAndDisplay s inp).lastChangedPot = Pot.POT_DELAY_TIME) := by
  have harb : pollArbitrated s inp.raw = s.lastChangedPot := by
    have h3 : ¬ ((pollCandidate s inp.raw).maxChange ≥ MIN_CHANGE_THRESHOLD) := by omega
    unfold pollArbitrated arbitrate
    simp [h3]
  refine ⟨harb, ?_, ?_⟩
  · intro hact
    rw [poll_lastChangedPot_of_active s inp hact, harb]
  · intro hnone
    have hr : pollRedraws s inp = true := by
      unfold pollRedraws
      rw [harb, hnone]
      simp [shouldRedraw, significantChange]
    rw [poll_lastChangedPot, harb, hnone]
    simp [hr]

/-- C14 amended, instantiated: a poll with changes 0, 1, 0 after
initialisation keeps Delay active; the same kind of poll at power-up ends with
Delay active. -/
theorem below_threshold_keeps_active_witness :
    (pollCandidate sampleState (pollAt 2000 1010 1000 5).raw).maxChange = 1 ∧
    sampleState.lastChangedPot = Pot.POT_DELAY_TIME ∧
    (updatePotentiometersAndDisplay sampleState (pollAt 2000 1010 1000 5)).lastChangedPot
      = sampleState.lastChangedPot ∧
    (updatePotentiometersAndDisplay bootState (pollAt 0 0 0 5)).lastChangedPot
      = Pot.POT_DELAY_TIME :=
  ⟨by decide, by decide,
    (below_threshold_keeps_active sampleState (pollAt 2000 1010 1000 5) (by decide)).2.1
      (by decide),
    by decide⟩

/-- C15. After every poll the stored previous filtered values `lastDelayTime`,
`lastFeedback`, `lastLevel` are the three filtered values computed in that
poll, so the changes of the next poll are the absolute differences between its
filtered values and those of this poll. -/
theorem previous_filtered_update (s : State) (inp : PollInput) :
    (updatePotentiometersAndDisplay s inp).lastDelayTime = (filterAll s inp.raw).delay.value ∧
    (updatePotentiometersAndDisplay s inp).lastFeedback = (filterAll s inp.raw).feedback.value ∧
    (updatePotentiometersAndDisplay s inp).lastLevel = (filterAll s inp.raw).level.value ∧
    (∀ next : Reading,
      delayTimeChange (updatePotentiometersAndDisplay s inp) next =
        |(filterAll (updatePotentiometersAndDisplay s inp) next).delay.value -
          (filterAll s inp.raw).delay.value| ∧
      feedbackChange (updatePotentiometersAndDisplay s inp) next =
        |(filterAll (updatePotentiometersAndDisplay s inp) next).feedback.value -
          (filterAll s inp.raw).feedback.value| ∧
      levelChange (updatePotentiometersAndDisplay s inp) next =
        |(filterAll (updatePotentiometersAndDisplay s inp) next).level.value -
          (filterAll s inp.raw).level.value|) := by
  have hd : (updatePotentiometersAndDisplay s inp).lastDelayTime =
      (filterAll s inp.raw).delay.value := rfl
  have hf : (updatePotentiometersAndDisplay s inp).lastFeedback =
      (filterAll s inp.raw).feedback.value := rfl
  have hl : (updatePotentiometersAndDisplay s inp).lastLevel =
      (filterAll s inp.raw).level.value := rfl
  refine ⟨hd, hf, hl, fun next => ⟨?_, ?_, ?_⟩⟩
  · rw [delayTimeChange, c_abs_eq_abs, hd]
  · rw [feedbackChange, c_abs_eq_abs, hf]
  · rw [levelChange, c_abs_eq_abs, hl]

/-- C17. For every starting state and every readings, `lastChangedPot` is
`POT_DELAY_TIME` right after `initPotentiometerController`; in every state
reached from there by polls it is one of Delay, Feedback, Level, never
`POT_NONE`; and every further poll leaves in it exactly the result of the
arbitration block: the redraw block does not change it. -/
theorem active_channel_lifecycle (s : State) (adc : Nat → Reading) (polls : List PollInput) :
    (initPotentiometerController s adc).lastChangedPot = Pot.POT_DELAY_TIME ∧
    (runPolls (initPotentiometerController s adc) polls).lastChangedPot ≠ Pot.POT_NONE ∧
    (∃ c : Channel, (runPolls (initPotentiometerController s adc) polls).lastChangedPot = c.pot) ∧
    (∀ inp : PollInput,
      (updatePotentiometersAndDisplay (runPolls (initPotentiometerController s adc) polls)
        inp).lastChangedPot =
        arbitrate (runPolls (initPotentiometerController s adc) polls).lastChangedPot
          (pollCandidate (runPolls (initPotentiometerController s adc) polls) inp.raw)
          (delayTimeChange (runPolls (initPotentiometerController s adc) polls) inp.raw)
          (feedbackChange (runPolls (initPotentiometerController s adc) polls) inp.raw)
          (levelChange (runPolls (initPotentiometerController s adc) polls) inp.raw)) := by
  have hinit := init_lastChangedPot s adc
  have hact : (runPolls (initPotentiometerController s adc) polls).lastChangedPot ≠
      Pot.POT_NONE :=
    runPolls_active polls _ (by rw [hinit]; decide)
  refine ⟨hinit, hact, ?_, fun inp => poll_lastChangedPot_of_active _ inp hact⟩
  rcases pot_cases (runPolls (initPotentiometerController s adc) polls).lastChangedPot
    with h | h
  · exact absurd h hact
  · exact h

/-! ## Priming and the ring index -/

/-- C18. A call of `filterValue` made while `filterInitialized` is unset, on a
buffer of ten slots with an index in `[0, 10)`, sets all ten slots to the new
value in the priming loop, before the indexed write, leaves them so, and
returns exactly the new value. -/
theorem priming_call (buffer : List Int) (index v : Int)
    (hlen : buffer.length = FILTER_SAMPLES) (h0 : 0 ≤ index) (h1 : index < FILTER_SAMPLES) :
    fillBuffer buffer v = List.replicate FILTER_SAMPLES v ∧
    index.toNat < (fillBuffer buffer v).length ∧
    (filterValue false buffer v index).buffer = List.replicate FILTER_SAMPLES v ∧
    (filterValue false buffer v index).value = v ∧
    (filterValue false buffer v index).index = (index + 1) % 10 := by
  have h1n : index < 10 := by simpa using h1
  refine ⟨fillBuffer_eq buffer v hlen, ?_, filterValue_unprimed_buffer buffer v index hlen,
    filterValue_unprimed_value buffer v index hlen, filterValue_index false buffer v index h0⟩
  rw [fillBuffer_eq buffer v hlen, List.length_replicate]
  omega

/-- C18, instantiated: priming the buffer `0, 10, .., 90` with 7 at index 3. -/
theorem priming_call_witness :
    filterValue false [0, 10, 20, 30, 40, 50, 60, 70, 80, 90] 7 3 =
      { buffer := [7, 7, 7, 7, 7, 7, 7, 7, 7, 7], index := 4, value := 7 } ∧
    (filterValue false [0, 10, 20, 30, 40, 50, 60, 70, 80, 90] 7 3).value = 7 :=
  ⟨by decide,
    (priming_call [0, 10, 20, 30, 40, 50, 60, 70, 80, 90] 3 7
      (by decide) (by decide) (by decide)).2.2.2.1⟩

/-- C19. After `initPotentiometerController`, run from a state in which the
priming flag is unset (as at power-up), every slot of the buffer of each
channel holds the last sample of that same channel read during initialisation,
and the stored previous filtered value of the channel equals that sample; both
are the same for any other stream of readings that gives this channel the same
last sample, whatever the other channels read. -/
theorem per_channel_priming (c : Channel) (s : State) (adc : Nat → Reading)
    (hflag : s.filterInitialized = false) (hlen : (c.buffer s).length = FILTER_SAMPLES)
    (h0 : 0 ≤ c.index s) (h1 : c.index s < FILTER_SAMPLES) :
    c.buffer (initPotentiometerController s adc) =
      List.replicate FILTER_SAMPLES (c.raw (adc (FILTER_SAMPLES - 1))) ∧
    c.last (initPotentiometerController s adc) = c.raw (adc (FILTER_SAMPLES - 1)) ∧
    (∀ adc2 : Nat → Reading,
      c.raw (adc2 (FILTER_SAMPLES - 1)) = c.raw (adc (FILTER_SAMPLES - 1)) →
      c.buffer (initPotentiometerController s adc2) =
        c.buffer (initPotentiometerController s adc) ∧
      c.last (initPotentiometerController s adc2) =
        c.last (initPotentiometerController s adc)) := by
  have h1' : c.index s < 10 := by simpa using h1
  obtain ⟨hb, hl⟩ := init_primes_channel c s adc hflag hlen h0 h1'
  refine ⟨hb, hl, ?_⟩
  intro adc2 heq
  obtain ⟨hb2, hl2⟩ := init_primes_channel c s adc2 hflag hlen h0 h1'
  have heq9 : c.raw (adc2 9) = c.raw (adc 9) := heq
  rw [hb2, hl2, hb, hl, heq9]
  exact ⟨rfl, rfl⟩

/-- C19, instantiated: initialisation at power-up on readings that differ
between the channels and change over the loop. -/
theorem per_channel_priming_witness :
    Channel.feedback.buffer (initPotentiometerController bootState
      (fun i => { rawDelayTime := 100 + i, rawFeedback := 2000 - i, rawLevel := 7 })) =
      [1991, 1991, 1991, 1991, 1991, 1991, 1991, 1991, 1991, 1991] ∧
    (initPotentiometerController bootState
      (fun i => { rawDelayTime := 100 + i, rawFeedback := 2000 - i, rawLevel := 7 })).lastDelayTime
      = 109 :=
  ⟨(per_channel_priming Channel.feedback bootState
      (fun i => { rawDelayTime := 100 + i, rawFeedback := 2000 - i, rawLevel := 7 })
      (by decide) (by decide) (by decide) (by decide)).1.trans (by decide),
    by decide⟩

/-- C20. A call of `filterValue` with an index in `[0, 10)` leaves an index in
`[0, 10)`.  From a state in which the filter of a channel has ten slots and an
index in `[0, 10)` (at power-up the index is 0), in every state of the priming
loop, after initialisation and after any number of polls the buffer has ten
slots and the index is in `[0, 10)`, so the write `buffer[*index]` is within
the bounds of the buffer. -/
theorem ring_index_safety (c : Channel) (s : State) (h : c.inBounds s) :
    (∀ (b : Bool) (buffer : List Int) (v i : Int), 0 ≤ i → i < FILTER_SAMPLES →
      0 ≤ (filterValue b buffer v i).index ∧
      (filterValue b buffer v i).index < FILTER_SAMPLES) ∧
    (∀ (adc : Nat → Reading) (n : Nat), c.inBounds (initLoopUpTo n s adc).1) ∧
    (∀ (adc : Nat → Reading) (polls : List PollInput),
      c.inBounds (runPolls (initPotentiometerController s adc) polls)) ∧
    (∀ c2 : Channel, c2.inBounds bootState ∧ c2.index bootState = 0) := by
  refine ⟨?_, ?_, ?_, ?_⟩
  · intro b buffer v i h0 _
    rw [filterValue_index b buffer v i h0]
    exact ⟨by omega, by simp; omega⟩
  · intro adc n
    exact initLoopUpTo_inBounds c s adc h n
  · intro adc polls
    exact runPolls_inBounds c polls _ (init_inBounds c s adc h)
  · intro c2
    cases c2 <;> exact ⟨⟨by decide, by decide, by decide, by decide⟩, rfl⟩

/-- C20, instantiated at power-up: after initialisation and twelve polls the
Delay index has wrapped around and is 3. -/
theorem ring_index_safety_witness :
    Channel.delay.inBounds bootState ∧
    Channel.delay.inBounds (runPolls (initPotentiometerController bootState sampleAdc)
      (List.replicate 12 (pollAt 2000 1000 1000 5))) ∧
    Channel.delay.index (runPolls (initPotentiometerController bootState sampleAdc)
      (List.replicate 12 (pollAt 2000 1000 1000 5))) = 3 :=
  ⟨⟨by decide, by decide, by decide, by decide⟩,
    (ring_index_safety Channel.delay bootState
      ⟨by decide, by decide, by decide, by decide⟩).2.2.1 sampleAdc
      (List.replicate 12 (pollAt 2000 1000 1000 5)),
    by decide⟩

/-! ## End-to-end ramp -/

/-- The run of the ramp with the time stamps erased: the poll with readings 0
followed by `k` polls with Delay 4095. -/
theorem ramp_erased (p0 : PollInput) (ps : List PollInput)
    (h0 : p0.raw = { rawDelayTime := 0, rawFeedback := 0, rawLevel := 0 })
    (hps : ∀ p ∈ ps, p.raw = { rawDelayTime := 4095, rawFeedback := 0, rawLevel := 0 })
    (k : Nat) (hk : k ≤ 10) (hlen : ps.length = 10) :
    eraseTime (runPolls zeroState (p0 :: ps.take k)) =
      runPolls zeroState (pollAt 0 0 0 0 :: List.replicate k (pollAt 4095 0 0 0)) := by
  have hmap : (p0 :: ps.take k).map zeroTime =
      pollAt 0 0 0 0 :: List.replicate k (pollAt 4095 0 0 0) := by
    have h1 := map_zeroTime_const { rawDelayTime := 4095, rawFeedback := 0, rawLevel := 0 }
      (ps.take k) (fun p hp => hps p (List.mem_of_mem_take hp))
    have h2 : (ps.take k).length = k := by rw [List.length_take, hlen]; omega
    rw [h2] at h1
    rw [List.map_cons, h1]
    simp [zeroTime, h0, pollAt]
  have hz : eraseTime zeroState = zeroState := by decide
  have hall : allSignificant (eraseTime zeroState) ((p0 :: ps.take k).map zeroTime) = true := by
    rw [hmap, hz]
    interval_cases k <;> decide
  rw [runPolls_erase _ _ hall, hmap, hz]

/-- C16. After initialisation at power-up with all readings 0, the first poll
with readings 0 displays `"Time\n0ms"`.  In the ten following polls with raw
Delay 4095 and raw Feedback and Level 0, whatever the time stamps of the
polls, the filtered Delay value after the `k`-th poll is `k * 4095 / 10`, which
is non-decreasing and is 4095 at the tenth; Delay stays active; every poll
displays `"Time\n<ms>ms"` with `ms` the converted filtered value, which is
non-decreasing; and the tenth poll displays `"Time\n500ms"`. -/
theorem end_to_end_ramp (p0 : PollInput) (ps : List PollInput)
    (h0 : p0.raw = { rawDelayTime := 0, rawFeedback := 0, rawLevel := 0 })
    (hps : ∀ p ∈ ps, p.raw = { rawDelayTime := 4095, rawFeedback := 0, rawLevel := 0 })
    (hlen : ps.length = FILTER_SAMPLES) :
    zeroState.displayLog = ["Time: 0ms"] ∧
    (runPolls zeroState [p0]).displayLog = ["Time: 0ms", "Time\n0ms"] ∧
    (∀ k : Nat, k ≤ FILTER_SAMPLES →
      (runPolls zeroState (p0 :: ps.take k)).lastDelayTime = rampFiltered k ∧
      (runPolls zeroState (p0 :: ps.take k)).lastChangedPot = Pot.POT_DELAY_TIME ∧
      (runPolls zeroState (p0 :: ps.take k)).displayLog =
        ["Time: 0ms", "Time\n0ms"] ++
          (List.range k).map (fun i => "Time\n" ++ fmtInt (rampMs (i + 1)) ++ "ms")) ∧
    (∀ i j : Nat, i ≤ j → j ≤ FILTER_SAMPLES →
      rampFiltered i ≤ rampFiltered j ∧ rampMs i ≤ rampMs j) ∧
    rampFiltered FILTER_SAMPLES = 4095 ∧
    "Time\n" ++ fmtInt (rampMs FILTER_SAMPLES) ++ "ms" = "Time\n500ms" := by
  refine ⟨by decide, ?_, ?_, ?_, by decide, by decide⟩
  · have h := congrArg State.displayLog (ramp_erased p0 ps h0 hps 0 (by decide) hlen)
    simp only [List.take_zero, List.replicate_zero] at h
    exact h.trans (by decide)
  · intro k hk
    have hk10 : k ≤ 10 := hk
    have h := ramp_erased p0 ps h0 hps k hk10 hlen
    have hd := congrArg State.lastDelayTime h
    have hp := congrArg State.lastChangedPot h
    have hl := congrArg State.displayLog h
    refine ⟨hd.trans ?_, hp.trans ?_, hl.trans ?_⟩ <;> (interval_cases k <;> decide)
  · intro i j hij hj
    have hj10 : j ≤ 10 := hj
    interval_cases j <;> interval_cases i <;> decide

/-- C16, instantiated: the ramp with polls every 7 ms. -/
theorem end_to_end_ramp_witness :
    (runPolls zeroState
      (pollAt 0 0 0 20 :: (List.replicate 10 (pollAt 4095 0 0 27)).take 10)).displayLog =
      ["Time: 0ms", "Time\n0ms", "Time\n49ms", "Time\n100ms", "Time\n149ms", "Time\n200ms",
        "Time\n249ms", "Time\n300ms", "Time\n349ms", "Time\n400ms", "Time\n449ms",
        "Time\n500ms"] ∧
    (runPolls zeroState
      (pollAt 0 0 0 20 :: (List.replicate 10 (pollAt 4095 0 0 27)).take 10)).lastDelayTime
      = 4095 :=
  ⟨((end_to_end_ramp (pollAt 0 0 0 20) (List.replicate 10 (pollAt 4095 0 0 27))
      (by decide) (by decide) (by decide)).2.2.1 10 (by decide)).2.2.trans (by decide),
    by decide⟩

end Chronomancer
